import Mathlib

/-!
Shallow embedding of the SSD1306 OLED driver (src/src/ssd1306.c of
GiovanniScotti/OLED-SSD1306-STM32-DRIVER) and verification of the spec's claims.

Modelling conventions:
* The C driver keeps a global `SSD1306_t SSD1306` structure and a global byte
  array `SSD1306_Buffer`.  Here the structure and the buffer are passed and
  returned explicitly; the buffer is a function from byte offsets to byte
  values (`Framebuffer`).  Offsets that are never written keep their value,
  matching a C array that the driver does not touch.
* `uint16_t` quantities are `Nat` (the driver never makes these wrap);
  `int16_t` quantities are `Int`.  A conversion of an `int` value to a
  `uint16_t` parameter is `u16`, i.e. reduction modulo 2^16, exactly the C
  conversion.  Bytes are `Nat` values below 256; the bit operations used
  (`|||`, `&&& (255 ^^^ _)`, `^^^ 255`) coincide with the C `uint8_t`
  operations on such values.
* The I2C bus is external (STM32 HAL).  Each HAL transmission is recorded as
  an `I2CEvent`; a function that writes to the bus returns the list of
  transmissions it performed, in order.  `HAL_I2C_IsDeviceReady`, the liveness
  probe in `SSD1306_init`, is modelled by a boolean parameter `probeOk`.
* C `for`/`while` loops are translated to structural recursions; loops whose
  C termination argument is not structural carry an explicit iteration bound
  (`fuel`) that dominates the number of iterations the C loop performs.
-/

/-- SSD1306_WIDTH (ssd1306.h). -/
def WIDTH : Nat := 128

/-- SSD1306_HEIGHT (ssd1306.h). -/
def HEIGHT : Nat := 64

/-- Size of `SSD1306_Buffer`: SSD1306_WIDTH * SSD1306_HEIGHT / 8. -/
def BUF_SIZE : Nat := WIDTH * HEIGHT / 8

/-- SSD1306_I2C_DATATMP_SIZE (ssd1306.h): capacity bound of the transmit
scratch buffer `data_tmp`. -/
def SSD1306_I2C_DATATMP_SIZE : Nat := 256

/-- SSD1306_I2C_ADDR (ssd1306.h). -/
def SSD1306_I2C_ADDR : Nat := 0x78

/-- The status enumeration `SSD1306_status_t`.  The implementation file uses
the success constant name `LCD_OK`; the header revision in inc/ssd1306.h
spells the same constant `SSD1306_OK`. -/
inductive SSD1306_status_t where
  | LCD_OK
  | I2C_ERROR
  | INVALID_PARAMS
  | NO_INIT
deriving DecidableEq

export SSD1306_status_t (LCD_OK I2C_ERROR INVALID_PARAMS NO_INIT)

/-- The color enumeration `SSD1306_color_t`. -/
inductive SSD1306_color_t where
  | BLACK
  | WHITE
deriving DecidableEq

export SSD1306_color_t (BLACK WHITE)

/-- C `!color` on the two-valued color enumeration
(`(SSD1306_color_t)!color`). -/
def notColor : SSD1306_color_t → SSD1306_color_t
  | BLACK => WHITE
  | WHITE => BLACK

/-- The `SSD1306_t` driver state (the `i2c_ptr` handle is external and
carries no information the driver reads, so it is omitted). -/
structure SSD1306_t where
  currentX : Nat
  currentY : Nat
  inverted : Bool
  initialized : Bool
deriving DecidableEq

/-- `SSD1306_Buffer` as a map from byte offset to byte value. -/
def Framebuffer : Type := Nat → Nat

/-- An all-0x00 framebuffer. -/
def allOFF : Framebuffer := fun _ => 0

/-- Write one byte of the framebuffer. -/
def setByte (buf : Framebuffer) (off v : Nat) : Framebuffer :=
  fun o => if o = off then v else buf o

/-- Read pixel (x, y): bit `y % 8` of the byte at offset `x + (y >> 3) * WIDTH`
(the layout used by `SSD1306_drawPixel`). -/
def getPixel (buf : Framebuffer) (x y : Nat) : Bool :=
  Nat.testBit (buf (x + (y / 8) * WIDTH)) (y % 8)

/-- Conversion of an `int` value to a `uint16_t` argument (C conversion:
reduction modulo 2^16). -/
def u16 (v : Int) : Nat := (v % 65536).toNat

/-- One HAL_I2C_Master_Transmit call: target address and transmitted bytes. -/
structure I2CEvent where
  addr : Nat
  bytes : List Nat
deriving DecidableEq

/-- `SSD1306_I2C_Write`: transmits `{reg, data}` (2 bytes) to `addr`. -/
def SSD1306_I2C_Write (addr reg data : Nat) : List I2CEvent :=
  [⟨addr, [reg, data]⟩]

/-- `SSD1306_I2C_WriteMulti`: when `count` exceeds the scratch-buffer size the
function returns having transmitted nothing (the C function has return type
`void`, so no status is reported either); otherwise it transmits
`reg` followed by the first `count` data bytes. -/
def SSD1306_I2C_WriteMulti (addr reg : Nat) (data : List Nat) (count : Nat) :
    List I2CEvent :=
  if count > SSD1306_I2C_DATATMP_SIZE then []
  else [⟨addr, reg :: data.take count⟩]

/-- The `SSD1306_WRITECOMMAND(c)` macro: `SSD1306_I2C_Write(ADDR, 0x00, c)`. -/
def SSD1306_WRITECOMMAND (c : Nat) : List I2CEvent :=
  SSD1306_I2C_Write SSD1306_I2C_ADDR 0x00 c

/-- Emission of a straight-line sequence of WRITECOMMAND calls. -/
def commandEvents (cs : List Nat) : List I2CEvent :=
  cs.foldr (fun c acc => SSD1306_WRITECOMMAND c ++ acc) []

/-- `SSD1306_fill`: requires initialization, then memsets the whole buffer to
0x00 (BLACK) or 0xFF (WHITE). -/
def SSD1306_fill (st : SSD1306_t) (buf : Framebuffer) (color : SSD1306_color_t) :
    SSD1306_status_t × Framebuffer :=
  if !st.initialized then (NO_INIT, buf)
  else
    match color with
    | BLACK => (LCD_OK, fun o => if o < BUF_SIZE then 0x00 else buf o)
    | WHITE => (LCD_OK, fun o => if o < BUF_SIZE then 0xFF else buf o)

/-- The `WIDTH` bytes of page `m`: `&SSD1306_Buffer[SSD1306_WIDTH * m]`. -/
def pageBytes (buf : Framebuffer) (m : Nat) : List Nat :=
  (List.range WIDTH).map fun i => buf (WIDTH * m + i)

/-- The page loop of `SSD1306_updateScreen`, pages `0..n-1` in order. -/
def updatePages (buf : Framebuffer) : Nat → List I2CEvent
  | 0 => []
  | m + 1 =>
    updatePages buf m ++
      (SSD1306_WRITECOMMAND (0xB0 + m) ++ SSD1306_WRITECOMMAND 0x00 ++
        SSD1306_WRITECOMMAND 0x10 ++
        SSD1306_I2C_WriteMulti SSD1306_I2C_ADDR 0x40 (pageBytes buf m) WIDTH)

/-- `SSD1306_updateScreen`: requires initialization, then per page issues the
page-select command, the two column-reset commands and the chunked page data
write. -/
def SSD1306_updateScreen (st : SSD1306_t) (buf : Framebuffer) :
    SSD1306_status_t × List I2CEvent :=
  if !st.initialized then (NO_INIT, [])
  else (LCD_OK, updatePages buf 8)

/-- `SSD1306_clear`: requires initialization, then fills BLACK and flushes,
ignoring the statuses of both calls. -/
def SSD1306_clear (st : SSD1306_t) (buf : Framebuffer) :
    SSD1306_status_t × Framebuffer × List I2CEvent :=
  if !st.initialized then (NO_INIT, buf, [])
  else
    let rFill := SSD1306_fill st buf BLACK
    let rUpd := SSD1306_updateScreen st rFill.2
    (LCD_OK, rFill.2, rUpd.2)

/-- The complement loop of `SSD1306_toggleInvert`:
`for (i = 0; i < n; i++) buf[i] = ~buf[i]` (on a byte `b < 256` the stored
value of C `~b` is `b ^^^ 255`). -/
def invertLoop (buf : Framebuffer) : Nat → Framebuffer
  | 0 => buf
  | n + 1 =>
    let b := invertLoop buf n
    fun o => if o = n then b n ^^^ 255 else b o

/-- `SSD1306_toggleInvert`: requires initialization, then complements every
buffer byte and flips the `inverted` flag. -/
def SSD1306_toggleInvert (st : SSD1306_t) (buf : Framebuffer) :
    SSD1306_status_t × SSD1306_t × Framebuffer :=
  if !st.initialized then (NO_INIT, st, buf)
  else (LCD_OK, { st with inverted := !st.inverted }, invertLoop buf BUF_SIZE)

/-- The fixed bring-up opcode sequence of `SSD1306_init` (including the final
`SSD1306_DEACTIVATE_SCROLL = 0x2E`). -/
def initCommands : List Nat :=
  [0xAE, 0x20, 0x10, 0xB0, 0xC8, 0x00, 0x10, 0x40, 0x81, 0xFF, 0xA1, 0xA6,
   0xA8, 0x3F, 0xA4, 0xD3, 0x00, 0xD5, 0xF0, 0xD9, 0x22, 0xDA, 0x12, 0xDB,
   0x20, 0x8D, 0x14, 0xAF, 0x2E]

/-- `SSD1306_init`.  `probeOk` is the outcome of the external
`HAL_I2C_IsDeviceReady` liveness probe.  The function first resets the cursor
and the `initialized` flag, aborts with `I2C_ERROR` if the probe fails,
otherwise emits the bring-up commands, calls `SSD1306_clear` (whose status it
ignores), sets `initialized`, and returns `LCD_OK`. -/
def SSD1306_init (probeOk : Bool) (st0 : SSD1306_t) (buf : Framebuffer) :
    SSD1306_status_t × SSD1306_t × Framebuffer × List I2CEvent :=
  let st := { st0 with currentX := 0, currentY := 0, initialized := false }
  if !probeOk then (I2C_ERROR, st, buf, [])
  else
    let cmdEvents := commandEvents initCommands
    let rClear := SSD1306_clear st buf
    (LCD_OK, { st with initialized := true }, rClear.2.1, cmdEvents ++ rClear.2.2)

/-- `SSD1306_drawPixel`: bounds guard, application of the `inverted` flag to
the color, then set/clear of bit `y & 7` in the byte at offset
`x + (y >> 3) * WIDTH`.  On a byte `b < 256` the stored value of
C `b & ~(1 << k)` (`k < 8`) is `b &&& (255 ^^^ (1 <<< k))`. -/
def SSD1306_drawPixel (st : SSD1306_t) (buf : Framebuffer) (x y : Nat)
    (color : SSD1306_color_t) : SSD1306_status_t × Framebuffer :=
  if WIDTH ≤ x ∨ HEIGHT ≤ y then (INVALID_PARAMS, buf)
  else
    let color := if st.inverted then notColor color else color
    match color with
    | WHITE =>
      (LCD_OK, setByte buf (x + (y / 8) * WIDTH)
        (buf (x + (y / 8) * WIDTH) ||| (1 <<< (y % 8))))
    | BLACK =>
      (LCD_OK, setByte buf (x + (y / 8) * WIDTH)
        (buf (x + (y / 8) * WIDTH) &&& (255 ^^^ (1 <<< (y % 8)))))

/-- `SSD1306_gotoXY`: bounds guard, then move the cursor. -/
def SSD1306_gotoXY (st : SSD1306_t) (x y : Nat) :
    SSD1306_status_t × SSD1306_t :=
  if WIDTH ≤ x ∨ HEIGHT ≤ y then (INVALID_PARAMS, st)
  else (LCD_OK, { st with currentX := x, currentY := y })

/-- `FontDef_t` (inc/fonts.h): fixed glyph width/height and the `uint16_t`
row-bitmask table. -/
structure FontDef_t where
  fontWidth : Nat
  fontHeight : Nat
  data : List Nat

/-- `font->data[(ch - 32) * font->fontHeight + i]`, the `uint16_t` bitmask of
glyph row `i` of character `ch`. -/
def glyphRow (font : FontDef_t) (ch i : Nat) : Nat :=
  font.data.getD ((ch - 32) * font.fontHeight + i) 0

/-- The inner (column) loop of `SSD1306_putc` for glyph row `i` with row
bitmask `b`, columns `0..n-1` in order: each destination pixel is drawn with
`color` when `(b << j) & 0x8000` is set and with `!color` otherwise. -/
def putcCols (st : SSD1306_t) (b i : Nat) (color : SSD1306_color_t)
    (buf : Framebuffer) : Nat → Framebuffer
  | 0 => buf
  | j + 1 =>
    let buf2 := putcCols st b i color buf j
    if (b <<< j) &&& 0x8000 ≠ 0 then
      (SSD1306_drawPixel st buf2 (st.currentX + j) (st.currentY + i) color).2
    else
      (SSD1306_drawPixel st buf2 (st.currentX + j) (st.currentY + i)
        (notColor color)).2

/-- The outer (row) loop of `SSD1306_putc`, rows `0..m-1` in order. -/
def putcRows (st : SSD1306_t) (ch : Nat) (font : FontDef_t)
    (color : SSD1306_color_t) (buf : Framebuffer) : Nat → Framebuffer
  | 0 => buf
  | m + 1 =>
    let buf2 := putcRows st ch font color buf m
    putcCols st (glyphRow font ch m) m color buf2 font.fontWidth

/-- `SSD1306_putc`: rejects when `WIDTH <= currentX + fontWidth` or
`HEIGHT <= currentY + fontHeight`; otherwise blits the glyph box opaquely and
advances `currentX` by `fontWidth`. -/
def SSD1306_putc (st : SSD1306_t) (buf : Framebuffer) (ch : Nat)
    (font : FontDef_t) (color : SSD1306_color_t) :
    SSD1306_status_t × SSD1306_t × Framebuffer :=
  if WIDTH ≤ st.currentX + font.fontWidth ∨
      HEIGHT ≤ st.currentY + font.fontHeight then
    (INVALID_PARAMS, st, buf)
  else
    let buf2 := putcRows st ch font color buf font.fontHeight
    (LCD_OK, { st with currentX := st.currentX + font.fontWidth }, buf2)

/-- `SSD1306_puts`: walks the string character by character, calling
`SSD1306_putc` and discarding its status, and returns `LCD_OK`. -/
def SSD1306_puts (st : SSD1306_t) (buf : Framebuffer) (str : List Nat)
    (font : FontDef_t) (color : SSD1306_color_t) :
    SSD1306_status_t × SSD1306_t × Framebuffer :=
  match str with
  | [] => (LCD_OK, st, buf)
  | ch :: rest =>
    let r := SSD1306_putc st buf ch font color
    SSD1306_puts r.2.1 r.2.2 rest font color

/-- The general (Bresenham) loop of `SSD1306_drawLine`.  The loop plots,
tests for the endpoint, then steps; `x0`, `y0` are `uint16_t` so the
`+= sx/sy` updates reduce modulo 2^16.  One of the two step conditions holds
at every iteration (`err` cannot be both `≤ -dx < 0` and `≥ dy > 0`), so the
C loop performs at most `dx + dy + 1` iterations; `fuel` bounds them. -/
def lineLoop (st : SSD1306_t) (c : SSD1306_color_t) (x1 y1 dx dy sx sy : Int) :
    Nat → Int → Int → Int → Framebuffer → Framebuffer
  | 0, _, _, _, buf => buf
  | fuel + 1, x0, y0, err, buf =>
    let buf2 := (SSD1306_drawPixel st buf (u16 x0) (u16 y0) c).2
    if x0 = x1 ∧ y0 = y1 then buf2
    else
      let e2 := err
      let err2 := if e2 > -dx then err - dy else err
      let x0' := if e2 > -dx then (x0 + sx) % 65536 else x0
      let err3 := if e2 < dy then err2 + dx else err2
      let y0' := if e2 < dy then (y0 + sy) % 65536 else y0
      lineLoop st c x1 y1 dx dy sx sy fuel x0' y0' err3 buf2

/-- The axis-aligned loop `for (i = y0; i <= y1; i++) drawPixel(x0, i, c)` of
the vertical branch of `SSD1306_drawLine`, with `n` iterations from `ya`. -/
def vLine (st : SSD1306_t) (c : SSD1306_color_t) (x ya n : Nat)
    (buf : Framebuffer) : Framebuffer :=
  (List.range n).foldl (fun b i => (SSD1306_drawPixel st b x (ya + i) c).2) buf

/-- The axis-aligned loop `for (i = x0; i <= x1; i++) drawPixel(i, y0, c)` of
the horizontal branch of `SSD1306_drawLine`, with `n` iterations from `xa`. -/
def hLine (st : SSD1306_t) (c : SSD1306_color_t) (y xa n : Nat)
    (buf : Framebuffer) : Framebuffer :=
  (List.range n).foldl (fun b i => (SSD1306_drawPixel st b (xa + i) y c).2) buf

/-- `SSD1306_drawLine`: clamps each endpoint coordinate into the panel, then
draws a vertical line (`dx = 0`), a horizontal line (`dy = 0`) or runs the
Bresenham stepper.  The error accumulator seed `(dx > dy ? dx : -dy) >> 1`
is an arithmetic shift, i.e. floor division by 2. -/
def SSD1306_drawLine (st : SSD1306_t) (buf : Framebuffer) (x0 y0 x1 y1 : Nat)
    (c : SSD1306_color_t) : SSD1306_status_t × Framebuffer :=
  let x0 := if WIDTH ≤ x0 then WIDTH - 1 else x0
  let x1 := if WIDTH ≤ x1 then WIDTH - 1 else x1
  let y0 := if HEIGHT ≤ y0 then HEIGHT - 1 else y0
  let y1 := if HEIGHT ≤ y1 then HEIGHT - 1 else y1
  let dx : Int := if x0 < x1 then (x1 : Int) - (x0 : Int) else (x0 : Int) - (x1 : Int)
  let dy : Int := if y0 < y1 then (y1 : Int) - (y0 : Int) else (y0 : Int) - (y1 : Int)
  let sx : Int := if x0 < x1 then 1 else -1
  let sy : Int := if y0 < y1 then 1 else -1
  let err : Int := (if dx > dy then dx else -dy).fdiv 2
  if dx = 0 then
    let ys := if y1 < y0 then (y1, y0) else (y0, y1)
    let xs := if x1 < x0 then (x1, x0) else (x0, x1)
    (LCD_OK, vLine st c xs.1 ys.1 (ys.2 + 1 - ys.1) buf)
  else if dy = 0 then
    let ys := if y1 < y0 then (y1, y0) else (y0, y1)
    let xs := if x1 < x0 then (x1, x0) else (x0, x1)
    (LCD_OK, hLine st c ys.1 xs.1 (xs.2 + 1 - xs.1) buf)
  else
    (LCD_OK, lineLoop st c (x1 : Int) (y1 : Int) dx dy sx sy
      (dx + dy + 1).toNat (x0 : Int) (y0 : Int) err buf)

/-- `SSD1306_drawRectangle`: corner guard, clamping of `w`/`h` at the panel
edge, then the four outline `SSD1306_drawLine` calls. -/
def SSD1306_drawRectangle (st : SSD1306_t) (buf : Framebuffer) (x y w h : Nat)
    (c : SSD1306_color_t) : SSD1306_status_t × Framebuffer :=
  if WIDTH ≤ x ∨ HEIGHT ≤ y then (INVALID_PARAMS, buf)
  else
    let w := if WIDTH ≤ x + w then WIDTH - x else w
    let h := if HEIGHT ≤ y + h then HEIGHT - y else h
    let b1 := (SSD1306_drawLine st buf x y (x + w) y c).2
    let b2 := (SSD1306_drawLine st b1 x (y + h) (x + w) (y + h) c).2
    let b3 := (SSD1306_drawLine st b2 x y x (y + h) c).2
    let b4 := (SSD1306_drawLine st b3 (x + w) y (x + w) (y + h) c).2
    (LCD_OK, b4)

/-- `SSD1306_drawFilledRectangle`: corner guard, clamping, then `h + 1`
horizontal `SSD1306_drawLine` calls. -/
def SSD1306_drawFilledRectangle (st : SSD1306_t) (buf : Framebuffer)
    (x y w h : Nat) (c : SSD1306_color_t) : SSD1306_status_t × Framebuffer :=
  if WIDTH ≤ x ∨ HEIGHT ≤ y then (INVALID_PARAMS, buf)
  else
    let w := if WIDTH ≤ x + w then WIDTH - x else w
    let h := if HEIGHT ≤ y + h then HEIGHT - y else h
    (LCD_OK, (List.range (h + 1)).foldl
      (fun b i => (SSD1306_drawLine st b x (y + i) (x + w) (y + i) c).2) buf)

/-- `SSD1306_drawTriangle`: the three outline `SSD1306_drawLine` calls. -/
def SSD1306_drawTriangle (st : SSD1306_t) (buf : Framebuffer)
    (x1 y1 x2 y2 x3 y3 : Nat) (c : SSD1306_color_t) :
    SSD1306_status_t × Framebuffer :=
  let b1 := (SSD1306_drawLine st buf x1 y1 x2 y2 c).2
  let b2 := (SSD1306_drawLine st b1 x2 y2 x3 y3 c).2
  let b3 := (SSD1306_drawLine st b2 x3 y3 x1 y1 c).2
  (LCD_OK, b3)

/-- The sweep loop of `SSD1306_drawFilledTriangle`: `numpixels + 1`
iterations, each drawing a line from the walking point `(x, y)` to the fixed
vertex `(x3, y3)` and advancing the DDA accumulators. -/
def filledTriLoop (st : SSD1306_t) (c : SSD1306_color_t) (x3 y3 : Nat)
    (xinc1 xinc2 yinc1 yinc2 den numadd : Int) :
    Nat → Int → Int → Int → Framebuffer → Framebuffer
  | 0, _, _, _, buf => buf
  | n + 1, x, y, num, buf =>
    let buf2 := (SSD1306_drawLine st buf (u16 x) (u16 y) x3 y3 c).2
    let num2 := num + numadd
    let x2 := if num2 ≥ den then x + xinc1 else x
    let y2 := if num2 ≥ den then y + yinc1 else y
    let num3 := if num2 ≥ den then num2 - den else num2
    filledTriLoop st c x3 y3 xinc1 xinc2 yinc1 yinc2 den numadd n
      (x2 + xinc2) (y2 + yinc2) num3 buf2

/-- `SSD1306_drawFilledTriangle`: DDA setup over the dominant axis of the
`(x1,y1)-(x2,y2)` leg, then the sweep loop. -/
def SSD1306_drawFilledTriangle (st : SSD1306_t) (buf : Framebuffer)
    (x1 y1 x2 y2 x3 y3 : Nat) (c : SSD1306_color_t) :
    SSD1306_status_t × Framebuffer :=
  let deltax : Int := ((x2 : Int) - (x1 : Int)).natAbs
  let deltay : Int := ((y2 : Int) - (y1 : Int)).natAbs
  let x : Int := (x1 : Int)
  let y : Int := (y1 : Int)
  let xinc1 : Int := if x1 ≤ x2 then 1 else -1
  let xinc2 : Int := if x1 ≤ x2 then 1 else -1
  let yinc1 : Int := if y1 ≤ y2 then 1 else -1
  let yinc2 : Int := if y1 ≤ y2 then 1 else -1
  let r : Int × Int × Int × Int × Int × Int :=
    if deltax ≥ deltay then (0, xinc2, yinc1, 0, deltax, deltay)
    else (xinc1, 0, 0, yinc2, deltay, deltax)
  match r with
  | (xi1, xi2, yi1, yi2, den, numadd) =>
    (LCD_OK, filledTriLoop st c x3 y3 xi1 xi2 yi1 yi2 den numadd
      (den.toNat + 1) x y (den.fdiv 2) buf)

/-- The eight symmetric offsets plotted per midpoint-circle step, in the
plotting order of `SSD1306_drawCircle`. -/
def reflections (a b : Int) : List (Int × Int) :=
  [(a, b), (-a, b), (a, -b), (-a, -b), (b, a), (-b, a), (b, -a), (-b, -a)]

/-- Plot a list of center-relative offsets through `SSD1306_drawPixel`
(each coordinate converted to `uint16_t` as in the C calls). -/
def plotPoints (st : SSD1306_t) (x0 y0 : Int) (c : SSD1306_color_t)
    (pts : List (Int × Int)) (buf : Framebuffer) : Framebuffer :=
  pts.foldl
    (fun b p => (SSD1306_drawPixel st b (u16 (x0 + p.1)) (u16 (y0 + p.2)) c).2)
    buf

/-- The `while (x < y)` loop of `SSD1306_drawCircle`: decision-variable
update, then the eight symmetric `SSD1306_drawPixel` calls.  Every iteration
increments `x` and never increases `y`, so the C loop performs at most
`y - x` iterations from any entry state; `fuel` bounds them. -/
def circleSteps (st : SSD1306_t) (x0 y0 : Int) (c : SSD1306_color_t) :
    Nat → Int → Int → Int → Int → Int → Framebuffer → Framebuffer
  | 0, _, _, _, _, _, buf => buf
  | fuel + 1, f, dfx, dfy, x, y, buf =>
    if x < y then
      let y2 := if f ≥ 0 then y - 1 else y
      let dfy2 := if f ≥ 0 then dfy + 2 else dfy
      let f2 := if f ≥ 0 then f + dfy2 else f
      let x2 := x + 1
      let dfx2 := dfx + 2
      let f3 := f2 + dfx2
      circleSteps st x0 y0 c fuel f3 dfx2 dfy2 x2 y2
        (plotPoints st x0 y0 c (reflections x2 y2) buf)
    else buf

/-- `SSD1306_drawCircle`: the four axis pixels, then the midpoint loop with
`f = 1 - r`, `ddF_x = 1`, `ddF_y = -2r`, `x = 0`, `y = r`. -/
def SSD1306_drawCircle (st : SSD1306_t) (buf : Framebuffer) (x0 y0 r : Int)
    (c : SSD1306_color_t) : SSD1306_status_t × Framebuffer :=
  let buf := plotPoints st x0 y0 c [(0, r), (0, -r), (r, 0), (-r, 0)] buf
  (LCD_OK, circleSteps st x0 y0 c r.toNat (1 - r) 1 (-2 * r) 0 r buf)

/-- The `while (x < y)` loop of `SSD1306_drawFilledCircle`: decision-variable
update, then the four chord `SSD1306_drawLine` calls. -/
def filledCircleSteps (st : SSD1306_t) (x0 y0 : Int) (c : SSD1306_color_t) :
    Nat → Int → Int → Int → Int → Int → Framebuffer → Framebuffer
  | 0, _, _, _, _, _, buf => buf
  | fuel + 1, f, dfx, dfy, x, y, buf =>
    if x < y then
      let y2 := if f ≥ 0 then y - 1 else y
      let dfy2 := if f ≥ 0 then dfy + 2 else dfy
      let f2 := if f ≥ 0 then f + dfy2 else f
      let x2 := x + 1
      let dfx2 := dfx + 2
      let f3 := f2 + dfx2
      let b1 := (SSD1306_drawLine st buf (u16 (x0 - x2)) (u16 (y0 + y2))
        (u16 (x0 + x2)) (u16 (y0 + y2)) c).2
      let b2 := (SSD1306_drawLine st b1 (u16 (x0 + x2)) (u16 (y0 - y2))
        (u16 (x0 - x2)) (u16 (y0 - y2)) c).2
      let b3 := (SSD1306_drawLine st b2 (u16 (x0 + y2)) (u16 (y0 + x2))
        (u16 (x0 - y2)) (u16 (y0 + x2)) c).2
      let b4 := (SSD1306_drawLine st b3 (u16 (x0 + y2)) (u16 (y0 - x2))
        (u16 (x0 - y2)) (u16 (y0 - x2)) c).2
      filledCircleSteps st x0 y0 c fuel f3 dfx2 dfy2 x2 y2 b4
    else buf

/-- `SSD1306_drawFilledCircle`: the four axis pixels and the horizontal
diameter, then the chord loop. -/
def SSD1306_drawFilledCircle (st : SSD1306_t) (buf : Framebuffer)
    (x0 y0 r : Int) (c : SSD1306_color_t) : SSD1306_status_t × Framebuffer :=
  let buf := plotPoints st x0 y0 c [(0, r), (0, -r), (r, 0), (-r, 0)] buf
  let buf := (SSD1306_drawLine st buf (u16 (x0 - r)) (u16 y0) (u16 (x0 + r))
    (u16 y0) c).2
  (LCD_OK, filledCircleSteps st x0 y0 c r.toNat (1 - r) 1 (-2 * r) 0 r buf)

/-- The inner (column) loop body of `SSD1306_drawBitmap`, threading the
`uint8_t` shift register `byte` across the row: at every eighth column the
register reloads from the bitmap, otherwise it shifts left; a pixel is drawn
only when bit 0x80 of the register is set. -/
def bitmapRow (st : SSD1306_t) (c : SSD1306_color_t) (bitmap : List Nat)
    (byteWidth x yj : Int) (j : Nat) (w : Nat) (buf : Framebuffer) :
    Framebuffer :=
  ((List.range w).foldl
    (fun (p : Nat × Framebuffer) i =>
      let byte :=
        if i % 8 ≠ 0 then (p.1 <<< 1) &&& 255
        else bitmap.getD ((j : Int) * byteWidth + (i : Int) / 8).toNat 0
      let b2 :=
        if byte &&& 0x80 ≠ 0 then
          (SSD1306_drawPixel st p.2 (u16 (x + (i : Int))) (u16 yj) c).2
        else p.2
      (byte, b2))
    (0, buf)).2

/-- `SSD1306_drawBitmap`: row-major, MSB-first, rows padded to
`byteWidth = (w + 7) >> 3` bytes; transparent blit (only set source bits are
drawn), `y` advancing with each row. -/
def SSD1306_drawBitmap (st : SSD1306_t) (buf : Framebuffer) (x y : Int)
    (bitmap : List Nat) (w h : Int) (c : SSD1306_color_t) :
    SSD1306_status_t × Framebuffer :=
  let byteWidth : Int := (w + 7).fdiv 8
  (LCD_OK, (List.range h.toNat).foldl
    (fun b (j : Nat) => bitmapRow st c bitmap byteWidth x (y + (j : Int)) j w.toNat b)
    buf)

/-! ## Derived definitions used to state the specification claims -/

/-- The effective pixel color of `SSD1306_drawPixel`: the requested color
XORed with the `inverted` flag. -/
def effColor (inv : Bool) (c : SSD1306_color_t) : SSD1306_color_t :=
  if inv then notColor c else c

/-- The stored bit value of a color: WHITE sets the bit, BLACK clears it. -/
def colorBit : SSD1306_color_t → Bool
  | BLACK => false
  | WHITE => true

/-- All bytes of the framebuffer are `uint8_t` values (as in the C array). -/
def byteBounded (buf : Framebuffer) : Prop := ∀ o, buf o < 256

/-- A freshly initialized, non-inverted driver state with the cursor at the
origin. -/
def stInit : SSD1306_t := ⟨0, 0, false, true⟩

/-- An uninitialized driver state. -/
def stUninit : SSD1306_t := ⟨0, 0, false, false⟩

/-- An all-0xFF framebuffer. -/
def bufFF : Framebuffer := fun _ => 0xFF

/-- Whether the `uint16_t` images of integer coordinates land inside the
panel (out-of-panel coordinates are the ones `SSD1306_drawPixel` rejects). -/
def inPanel (X Y : Int) : Prop := u16 X < WIDTH ∧ u16 Y < HEIGHT

/-- Whether the pixel addressed by the `uint16_t` images of the given integer
coordinates is set. -/
def pixSet (buf : Framebuffer) (X Y : Int) : Prop :=
  getPixel buf (u16 X) (u16 Y) = true

/-- Eightfold reflection symmetry of the set of in-panel pixels about the
center `(cx, cy)`: whenever the in-panel pixel at offset `(a, b)` from the
center is set, every one of its eight reflections that lies in the panel is
set as well. -/
def SymAbout (cx cy : Int) (buf : Framebuffer) : Prop :=
  ∀ a b : Int, inPanel (cx + a) (cy + b) → pixSet buf (cx + a) (cy + b) →
    ∀ q ∈ reflections a b,
      inPanel (cx + q.1) (cy + q.2) → pixSet buf (cx + q.1) (cy + q.2)

/-! ## Basic facts about the panel constants and bytes -/

theorem WIDTH_eq : WIDTH = 128 := rfl

theorem HEIGHT_eq : HEIGHT = 64 := rfl

theorem BUF_SIZE_eq : BUF_SIZE = 1024 := rfl

theorem byteBounded_allOFF : byteBounded allOFF := fun _ => by norm_num [allOFF]

theorem testBit_255_of_lt {i : Nat} (h : i < 8) : Nat.testBit 255 i = true := by
  interval_cases i <;> decide

theorem testBit_255_of_ge {i : Nat} (h : 8 ≤ i) : Nat.testBit 255 i = false := by
  have : (255 : Nat) < 2 ^ i :=
    lt_of_lt_of_le (by norm_num) (Nat.pow_le_pow_right (by norm_num) h)
  exact Nat.testBit_lt_two_pow this

theorem testBit_of_byte {b i : Nat} (hb : b < 256) (h : 8 ≤ i) :
    Nat.testBit b i = false := by
  have : b < 2 ^ i :=
    lt_of_lt_of_le hb (le_trans (by norm_num) (Nat.pow_le_pow_right (by norm_num) h))
  exact Nat.testBit_lt_two_pow this

/-! ## SSD1306_drawPixel lemmas -/

/-- Normal form of `SSD1306_drawPixel` via `effColor`/`colorBit`. -/
theorem drawPixel_eq (st : SSD1306_t) (buf : Framebuffer) (x y : Nat)
    (c : SSD1306_color_t) :
    SSD1306_drawPixel st buf x y c =
      if WIDTH ≤ x ∨ HEIGHT ≤ y then (INVALID_PARAMS, buf)
      else
        (LCD_OK, setByte buf (x + (y / 8) * WIDTH)
          (if colorBit (effColor st.inverted c)
           then buf (x + (y / 8) * WIDTH) ||| (1 <<< (y % 8))
           else buf (x + (y / 8) * WIDTH) &&& (255 ^^^ (1 <<< (y % 8))))) := by
  unfold SSD1306_drawPixel effColor
  split
  · rfl
  · cases h : (if st.inverted then notColor c else c) <;> simp [h, colorBit]

theorem drawPixel_fst (st : SSD1306_t) (buf : Framebuffer) (x y : Nat)
    (c : SSD1306_color_t) :
    (SSD1306_drawPixel st buf x y c).1 =
      if WIDTH ≤ x ∨ HEIGHT ≤ y then INVALID_PARAMS else LCD_OK := by
  rw [drawPixel_eq]; split <;> rfl

/-- Bytes other than the target byte are untouched. -/
theorem drawPixel_apply_ne (st : SSD1306_t) (buf : Framebuffer) (x y : Nat)
    (c : SSD1306_color_t) {o : Nat} (h : o ≠ x + (y / 8) * WIDTH) :
    (SSD1306_drawPixel st buf x y c).2 o = buf o := by
  rw [drawPixel_eq]
  split
  · rfl
  · simp [setByte, h]

/-- The drawn pixel reads back as the effective color. -/
theorem getPixel_drawPixel_self (st : SSD1306_t) (buf : Framebuffer)
    {x y : Nat} (c : SSD1306_color_t) (hx : x < WIDTH) (hy : y < HEIGHT) :
    getPixel (SSD1306_drawPixel st buf x y c).2 x y =
      colorBit (effColor st.inverted c) := by
  rw [drawPixel_eq, if_neg (by omega)]
  simp only [getPixel, setByte, if_true, eq_self_iff_true]
  rw [Nat.shiftLeft_eq, one_mul]
  split
  · rename_i hcb
    rw [Nat.testBit_lor, hcb]
    simp [Nat.testBit_two_pow]
  · rename_i hcb
    rw [Nat.testBit_land, Nat.testBit_xor]
    rw [testBit_255_of_lt (Nat.mod_lt _ (by norm_num))]
    simp only [Bool.not_eq_true] at hcb
    rw [hcb]
    simp [Nat.testBit_two_pow]

/-- Every other in-panel pixel is untouched. -/
theorem getPixel_drawPixel_other (st : SSD1306_t) (buf : Framebuffer)
    (x y : Nat) (c : SSD1306_color_t) {qx qy : Nat}
    (hqx : qx < WIDTH) (hqy : qy < HEIGHT) (hne : ¬(qx = x ∧ qy = y)) :
    getPixel (SSD1306_drawPixel st buf x y c).2 qx qy = getPixel buf qx qy := by
  rw [drawPixel_eq]
  split
  · rfl
  · rename_i hin
    simp only [getPixel, setByte]
    by_cases hoff : qx + (qy / 8) * WIDTH = x + (y / 8) * WIDTH
    · rw [if_pos hoff]
      have hoff' := hoff
      have hqx' := hqx
      have hqy' := hqy
      simp only [WIDTH_eq, HEIGHT_eq] at hin hoff' hqx' hqy'
      have hbit : y % 8 ≠ qy % 8 := by omega
      rw [Nat.shiftLeft_eq, one_mul, ← hoff]
      split
      · rw [Nat.testBit_lor]
        simp [Nat.testBit_two_pow, hbit]
      · rw [Nat.testBit_land, Nat.testBit_xor]
        rw [testBit_255_of_lt (Nat.mod_lt _ (by norm_num))]
        simp [Nat.testBit_two_pow, hbit]
    · rw [if_neg hoff]

/-- Any bit change performed by `SSD1306_drawPixel` on a byte-valued buffer is
at the target byte and the target bit, and the coordinates were in bounds. -/
theorem drawPixel_changed (st : SSD1306_t) (buf : Framebuffer) (x y : Nat)
    (c : SSD1306_color_t) {o k : Nat} (hb : byteBounded buf)
    (hch : Nat.testBit ((SSD1306_drawPixel st buf x y c).2 o) k ≠
      Nat.testBit (buf o) k) :
    x < WIDTH ∧ y < HEIGHT ∧ o = x + (y / 8) * WIDTH ∧ k = y % 8 := by
  rw [drawPixel_eq] at hch
  rcases Nat.lt_or_ge x WIDTH with hx | hx
  swap
  · rw [if_pos (Or.inl hx)] at hch; exact absurd rfl hch
  rcases Nat.lt_or_ge y HEIGHT with hy | hy
  swap
  · rw [if_pos (Or.inr hy)] at hch; exact absurd rfl hch
  rw [if_neg (by omega)] at hch
  refine ⟨hx, hy, ?_⟩
  simp only [setByte] at hch
  by_cases hoff : o = x + (y / 8) * WIDTH
  swap
  · rw [if_neg hoff] at hch; exact absurd rfl hch
  rw [if_pos hoff] at hch
  refine ⟨hoff, ?_⟩
  subst hoff
  rw [Nat.shiftLeft_eq, one_mul] at hch
  by_cases hk : k = y % 8
  · exact hk
  exfalso
  rcases Nat.lt_or_ge k 8 with hk8 | hk8
  · split at hch
    · rw [Nat.testBit_lor] at hch
      simp [Nat.testBit_two_pow, Ne.symm hk] at hch
    · rw [Nat.testBit_land, Nat.testBit_xor, testBit_255_of_lt hk8] at hch
      simp [Nat.testBit_two_pow, Ne.symm hk] at hch
  · have hbk : Nat.testBit (buf (x + y / 8 * WIDTH)) k = false :=
      testBit_of_byte (hb _) hk8
    split at hch
    · rw [Nat.testBit_lor, hbk] at hch
      simp [Nat.testBit_two_pow] at hch
      omega
    · rw [Nat.testBit_land, hbk] at hch
      simp at hch

/-- `SSD1306_drawPixel` keeps all bytes below 256. -/
theorem byteBounded_drawPixel (st : SSD1306_t) {buf : Framebuffer}
    (x y : Nat) (c : SSD1306_color_t) (hb : byteBounded buf) :
    byteBounded (SSD1306_drawPixel st buf x y c).2 := by
  intro o
  rw [drawPixel_eq]
  split
  · exact hb o
  simp only [setByte]
  split
  swap
  · exact hb o
  split
  · rw [Nat.shiftLeft_eq, one_mul]
    have h1 : buf (x + y / 8 * WIDTH) < 2 ^ 8 := by
      have := hb (x + y / 8 * WIDTH); omega
    have h2 : 2 ^ (y % 8) < 2 ^ 8 :=
      Nat.pow_lt_pow_right (by norm_num) (Nat.mod_lt _ (by norm_num))
    exact lt_of_lt_of_le (Nat.or_lt_two_pow h1 h2) (by norm_num)
  · exact lt_of_le_of_lt (Nat.and_le_left) (hb _)

/-! ## Axis-aligned line loops -/

theorem hLine_zero (st : SSD1306_t) (c : SSD1306_color_t) (y xa : Nat)
    (buf : Framebuffer) : hLine st c y xa 0 buf = buf := rfl

theorem hLine_succ (st : SSD1306_t) (c : SSD1306_color_t) (y xa n : Nat)
    (buf : Framebuffer) :
    hLine st c y xa (n + 1) buf =
      (SSD1306_drawPixel st (hLine st c y xa n buf) (xa + n) y c).2 := by
  unfold hLine
  rw [List.range_succ, List.foldl_append]
  rfl

theorem vLine_zero (st : SSD1306_t) (c : SSD1306_color_t) (x ya : Nat)
    (buf : Framebuffer) : vLine st c x ya 0 buf = buf := rfl

theorem vLine_succ (st : SSD1306_t) (c : SSD1306_color_t) (x ya n : Nat)
    (buf : Framebuffer) :
    vLine st c x ya (n + 1) buf =
      (SSD1306_drawPixel st (vLine st c x ya n buf) x (ya + n) c).2 := by
  unfold vLine
  rw [List.range_succ, List.foldl_append]
  rfl

theorem vLine_one_eq_hLine_one (st : SSD1306_t) (c : SSD1306_color_t)
    (x y : Nat) (buf : Framebuffer) :
    vLine st c x y 1 buf = hLine st c y x 1 buf := by
  rw [vLine_succ, hLine_succ, vLine_zero, hLine_zero, Nat.add_zero, Nat.add_zero]

theorem getPixel_hLine (st : SSD1306_t) (c : SSD1306_color_t) (y xa n : Nat)
    (buf : Framebuffer) {qx qy : Nat} (hqx : qx < WIDTH) (hqy : qy < HEIGHT) :
    getPixel (hLine st c y xa n buf) qx qy =
      if qy = y ∧ xa ≤ qx ∧ qx < xa + n then colorBit (effColor st.inverted c)
      else getPixel buf qx qy := by
  induction n with
  | zero => rw [hLine_zero, if_neg (by omega)]
  | succ n ih =>
    rw [hLine_succ]
    by_cases hq : qx = xa + n ∧ qy = y
    · obtain ⟨h1, h2⟩ := hq
      subst h1; subst h2
      rw [getPixel_drawPixel_self st _ c hqx hqy, if_pos (by omega)]
    · rw [getPixel_drawPixel_other st _ (xa + n) y c hqx hqy hq, ih]
      by_cases hcond : qy = y ∧ xa ≤ qx ∧ qx < xa + n
      · rw [if_pos hcond, if_pos (by omega)]
      · rw [if_neg hcond, if_neg (by omega)]

theorem getPixel_vLine (st : SSD1306_t) (c : SSD1306_color_t) (x ya n : Nat)
    (buf : Framebuffer) {qx qy : Nat} (hqx : qx < WIDTH) (hqy : qy < HEIGHT) :
    getPixel (vLine st c x ya n buf) qx qy =
      if qx = x ∧ ya ≤ qy ∧ qy < ya + n then colorBit (effColor st.inverted c)
      else getPixel buf qx qy := by
  induction n with
  | zero => rw [vLine_zero, if_neg (by omega)]
  | succ n ih =>
    rw [vLine_succ]
    by_cases hq : qx = x ∧ qy = ya + n
    · obtain ⟨h1, h2⟩ := hq
      subst h1; subst h2
      rw [getPixel_drawPixel_self st _ c hqx hqy, if_pos (by omega)]
    · rw [getPixel_drawPixel_other st _ x (ya + n) c hqx hqy hq, ih]
      by_cases hcond : qx = x ∧ ya ≤ qy ∧ qy < ya + n
      · rw [if_pos hcond, if_pos (by omega)]
      · rw [if_neg hcond, if_neg (by omega)]

theorem byteBounded_hLine (st : SSD1306_t) (c : SSD1306_color_t) (y xa n : Nat)
    {buf : Framebuffer} (hb : byteBounded buf) :
    byteBounded (hLine st c y xa n buf) := by
  induction n with
  | zero => exact hb
  | succ n ih => rw [hLine_succ]; exact byteBounded_drawPixel _ _ _ _ ih

theorem byteBounded_vLine (st : SSD1306_t) (c : SSD1306_color_t) (x ya n : Nat)
    {buf : Framebuffer} (hb : byteBounded buf) :
    byteBounded (vLine st c x ya n buf) := by
  induction n with
  | zero => exact hb
  | succ n ih => rw [vLine_succ]; exact byteBounded_drawPixel _ _ _ _ ih

theorem hLine_changed (st : SSD1306_t) (c : SSD1306_color_t) (y xa n : Nat)
    {buf : Framebuffer} (hb : byteBounded buf) {o k : Nat}
    (hch : Nat.testBit ((hLine st c y xa n buf) o) k ≠ Nat.testBit (buf o) k) :
    y < HEIGHT ∧ k = y % 8 ∧
      ∃ i, i < n ∧ xa + i < WIDTH ∧ o = (xa + i) + (y / 8) * WIDTH := by
  induction n with
  | zero => exact absurd rfl hch
  | succ n ih =>
    rw [hLine_succ] at hch
    by_cases hmid :
        Nat.testBit ((hLine st c y xa n buf) o) k = Nat.testBit (buf o) k
    · rw [← hmid] at hch
      obtain ⟨h1, h2, h3, h4⟩ :=
        drawPixel_changed st _ (xa + n) y c (byteBounded_hLine st c y xa n hb) hch
      exact ⟨h2, h4, n, Nat.lt_succ_self n, h1, h3⟩
    · obtain ⟨h1, h2, i, hi, h3, h4⟩ := ih hmid
      exact ⟨h1, h2, i, Nat.lt_succ_of_lt hi, h3, h4⟩

theorem vLine_changed (st : SSD1306_t) (c : SSD1306_color_t) (x ya n : Nat)
    {buf : Framebuffer} (hb : byteBounded buf) {o k : Nat}
    (hch : Nat.testBit ((vLine st c x ya n buf) o) k ≠ Nat.testBit (buf o) k) :
    x < WIDTH ∧
      ∃ i, i < n ∧ ya + i < HEIGHT ∧ o = x + ((ya + i) / 8) * WIDTH ∧
        k = (ya + i) % 8 := by
  induction n with
  | zero => exact absurd rfl hch
  | succ n ih =>
    rw [vLine_succ] at hch
    by_cases hmid :
        Nat.testBit ((vLine st c x ya n buf) o) k = Nat.testBit (buf o) k
    · rw [← hmid] at hch
      obtain ⟨h1, h2, h3, h4⟩ :=
        drawPixel_changed st _ x (ya + n) c (byteBounded_vLine st c x ya n hb) hch
      exact ⟨h1, n, Nat.lt_succ_self n, h2, h3, h4⟩
    · obtain ⟨h1, i, hi, h2, h3, h4⟩ := ih hmid
      exact ⟨h1, i, Nat.lt_succ_of_lt hi, h2, h3, h4⟩

/-! ## Reduction of `SSD1306_drawLine` in the axis-aligned cases -/

theorem drawLine_sameRow (st : SSD1306_t) (buf : Framebuffer) (x0 y x1 : Nat)
    (c : SSD1306_color_t) (hle : x0 ≤ x1) :
    SSD1306_drawLine st buf x0 y x1 y c =
      (LCD_OK, hLine st c (if HEIGHT ≤ y then HEIGHT - 1 else y)
        (if WIDTH ≤ x0 then WIDTH - 1 else x0)
        ((if WIDTH ≤ x1 then WIDTH - 1 else x1) + 1 -
          (if WIDTH ≤ x0 then WIDTH - 1 else x0)) buf) := by
  unfold SSD1306_drawLine
  dsimp only
  set x0c := if WIDTH ≤ x0 then WIDTH - 1 else x0 with hx0c
  set x1c := if WIDTH ≤ x1 then WIDTH - 1 else x1 with hx1c
  set yc := if HEIGHT ≤ y then HEIGHT - 1 else y with hyc
  have hcle : x0c ≤ x1c := by
    rw [hx0c, hx1c]; simp only [WIDTH_eq]; split <;> split <;> omega
  rw [if_neg (lt_irrefl yc)]
  by_cases hlt : x0c < x1c
  · rw [if_pos hlt, if_neg (show ¬((x1c : Int) - (x0c : Int) = 0) by omega),
      if_neg (lt_irrefl yc), if_pos (show ((yc : Int) - (yc : Int) = 0) by omega),
      if_neg (show ¬(x1c < x0c) by omega)]
  · have heq : x1c = x0c := by omega
    rw [if_neg hlt, if_pos (show ((x0c : Int) - (x1c : Int) = 0) by omega),
      if_neg (show ¬(x1c < x0c) by omega), heq,
      show yc + 1 - yc = 1 from by omega, show x0c + 1 - x0c = 1 from by omega,
      vLine_one_eq_hLine_one]

theorem drawLine_sameCol (st : SSD1306_t) (buf : Framebuffer) (x y0 y1 : Nat)
    (c : SSD1306_color_t) (hle : y0 ≤ y1) :
    SSD1306_drawLine st buf x y0 x y1 c =
      (LCD_OK, vLine st c (if WIDTH ≤ x then WIDTH - 1 else x)
        (if HEIGHT ≤ y0 then HEIGHT - 1 else y0)
        ((if HEIGHT ≤ y1 then HEIGHT - 1 else y1) + 1 -
          (if HEIGHT ≤ y0 then HEIGHT - 1 else y0)) buf) := by
  unfold SSD1306_drawLine
  dsimp only
  set xc := if WIDTH ≤ x then WIDTH - 1 else x with hxc
  set y0c := if HEIGHT ≤ y0 then HEIGHT - 1 else y0 with hy0c
  set y1c := if HEIGHT ≤ y1 then HEIGHT - 1 else y1 with hy1c
  have hcle : y0c ≤ y1c := by
    rw [hy0c, hy1c]; simp only [HEIGHT_eq]; split <;> split <;> omega
  simp only [if_neg (lt_irrefl xc)]
  rw [if_pos (show ((xc : Int) - (xc : Int) = 0) by omega),
    if_neg (show ¬(y1c < y0c) by omega)]

/-! ## Status values of the drawing operations -/

theorem getPixel_allOFF (x y : Nat) : getPixel allOFF x y = false := by
  simp [getPixel, allOFF]

theorem drawLine_fst (st : SSD1306_t) (buf : Framebuffer) (x0 y0 x1 y1 : Nat)
    (c : SSD1306_color_t) : (SSD1306_drawLine st buf x0 y0 x1 y1 c).1 = LCD_OK := by
  unfold SSD1306_drawLine
  dsimp only
  simp [apply_ite Prod.fst]

theorem drawRectangle_fst (st : SSD1306_t) (buf : Framebuffer) (x y w h : Nat)
    (c : SSD1306_color_t) :
    (SSD1306_drawRectangle st buf x y w h c).1 =
      if WIDTH ≤ x ∨ HEIGHT ≤ y then INVALID_PARAMS else LCD_OK := by
  unfold SSD1306_drawRectangle
  split <;> rfl

theorem drawFilledRectangle_fst (st : SSD1306_t) (buf : Framebuffer)
    (x y w h : Nat) (c : SSD1306_color_t) :
    (SSD1306_drawFilledRectangle st buf x y w h c).1 =
      if WIDTH ≤ x ∨ HEIGHT ≤ y then INVALID_PARAMS else LCD_OK := by
  unfold SSD1306_drawFilledRectangle
  split <;> rfl

theorem drawTriangle_fst (st : SSD1306_t) (buf : Framebuffer)
    (x1 y1 x2 y2 x3 y3 : Nat) (c : SSD1306_color_t) :
    (SSD1306_drawTriangle st buf x1 y1 x2 y2 x3 y3 c).1 = LCD_OK := rfl

theorem drawFilledTriangle_fst (st : SSD1306_t) (buf : Framebuffer)
    (x1 y1 x2 y2 x3 y3 : Nat) (c : SSD1306_color_t) :
    (SSD1306_drawFilledTriangle st buf x1 y1 x2 y2 x3 y3 c).1 = LCD_OK := by
  unfold SSD1306_drawFilledTriangle
  dsimp only

theorem drawCircle_fst (st : SSD1306_t) (buf : Framebuffer) (x0 y0 r : Int)
    (c : SSD1306_color_t) : (SSD1306_drawCircle st buf x0 y0 r c).1 = LCD_OK := rfl

theorem drawFilledCircle_fst (st : SSD1306_t) (buf : Framebuffer) (x0 y0 r : Int)
    (c : SSD1306_color_t) :
    (SSD1306_drawFilledCircle st buf x0 y0 r c).1 = LCD_OK := rfl

theorem drawBitmap_fst (st : SSD1306_t) (buf : Framebuffer) (x y : Int)
    (bitmap : List Nat) (w h : Int) (c : SSD1306_color_t) :
    (SSD1306_drawBitmap st buf x y bitmap w h c).1 = LCD_OK := rfl

theorem putc_fst (st : SSD1306_t) (buf : Framebuffer) (ch : Nat)
    (font : FontDef_t) (c : SSD1306_color_t) :
    (SSD1306_putc st buf ch font c).1 =
      if WIDTH ≤ st.currentX + font.fontWidth ∨
          HEIGHT ≤ st.currentY + font.fontHeight then INVALID_PARAMS
      else LCD_OK := by
  unfold SSD1306_putc
  split <;> rfl

theorem puts_fst (str : List Nat) : ∀ (st : SSD1306_t) (buf : Framebuffer)
    (font : FontDef_t) (c : SSD1306_color_t),
    (SSD1306_puts st buf str font c).1 = LCD_OK := by
  induction str with
  | nil => intro st buf font c; rfl
  | cons ch rest ih =>
    intro st buf font c
    simp only [SSD1306_puts]
    exact ih _ _ _ _

theorem gotoXY_fst (st : SSD1306_t) (x y : Nat) :
    (SSD1306_gotoXY st x y).1 =
      if WIDTH ≤ x ∨ HEIGHT ≤ y then INVALID_PARAMS else LCD_OK := by
  unfold SSD1306_gotoXY
  split <;> rfl

/-! ## C1: which operations check the `initialized` flag -/

/-- C1 (counterexample): with `initialized = false`, `SSD1306_drawPixel`
does not fail fast with NO_INIT: it returns LCD_OK and modifies the
framebuffer, contradicting the claim that every drawing operation other than
initialization fails fast with NO_INIT leaving the framebuffer unchanged. -/
theorem claim_C1_counterexample :
    (SSD1306_drawPixel stUninit allOFF 0 0 WHITE).1 = LCD_OK ∧
    getPixel (SSD1306_drawPixel stUninit allOFF 0 0 WHITE).2 0 0 = true ∧
    getPixel allOFF 0 0 = false := ⟨rfl, rfl, rfl⟩

/-- C1 (amended): only `fill`, `clear`, `updateScreen` and `toggleInvert`
fail fast with NO_INIT on an uninitialized device (leaving the framebuffer,
cursor and bus untouched); all other drawing/query operations (drawPixel,
drawLine, the rectangles, the triangles, the circles, drawBitmap, putc,
puts, gotoXY) never return NO_INIT and proceed regardless of the
`initialized` flag. -/
theorem claim_C1_amended (st : SSD1306_t) (buf : Framebuffer)
    (c : SSD1306_color_t) (x y x2 y2 x3 y3 w h : Nat) (cx cy r bx yb bw bh : Int)
    (bitmap : List Nat) (ch : Nat) (font : FontDef_t) (str : List Nat)
    (hni : st.initialized = false) :
    SSD1306_fill st buf c = (NO_INIT, buf) ∧
    SSD1306_clear st buf = (NO_INIT, buf, []) ∧
    SSD1306_updateScreen st buf = (NO_INIT, []) ∧
    SSD1306_toggleInvert st buf = (NO_INIT, st, buf) ∧
    (SSD1306_drawPixel st buf x y c).1 ≠ NO_INIT ∧
    (SSD1306_drawLine st buf x y x2 y2 c).1 ≠ NO_INIT ∧
    (SSD1306_drawRectangle st buf x y w h c).1 ≠ NO_INIT ∧
    (SSD1306_drawFilledRectangle st buf x y w h c).1 ≠ NO_INIT ∧
    (SSD1306_drawTriangle st buf x y x2 y2 x3 y3 c).1 ≠ NO_INIT ∧
    (SSD1306_drawFilledTriangle st buf x y x2 y2 x3 y3 c).1 ≠ NO_INIT ∧
    (SSD1306_drawCircle st buf cx cy r c).1 ≠ NO_INIT ∧
    (SSD1306_drawFilledCircle st buf cx cy r c).1 ≠ NO_INIT ∧
    (SSD1306_drawBitmap st buf bx yb bitmap bw bh c).1 ≠ NO_INIT ∧
    (SSD1306_putc st buf ch font c).1 ≠ NO_INIT ∧
    (SSD1306_puts st buf str font c).1 ≠ NO_INIT ∧
    (SSD1306_gotoXY st x y).1 ≠ NO_INIT := by
  refine ⟨?_, ?_, ?_, ?_, ?_, ?_, ?_, ?_, ?_, ?_, ?_, ?_, ?_, ?_, ?_, ?_⟩
  · unfold SSD1306_fill; rw [if_pos (by simp [hni])]
  · unfold SSD1306_clear; rw [if_pos (by simp [hni])]
  · unfold SSD1306_updateScreen; rw [if_pos (by simp [hni])]
  · unfold SSD1306_toggleInvert; rw [if_pos (by simp [hni])]
  · rw [drawPixel_fst]; split <;> simp
  · rw [drawLine_fst]; simp
  · rw [drawRectangle_fst]; split <;> simp
  · rw [drawFilledRectangle_fst]; split <;> simp
  · rw [drawTriangle_fst]; simp
  · rw [drawFilledTriangle_fst]; simp
  · rw [drawCircle_fst]; simp
  · rw [drawFilledCircle_fst]; simp
  · rw [drawBitmap_fst]; simp
  · rw [putc_fst]; split <;> simp
  · rw [puts_fst]; simp
  · rw [gotoXY_fst]; split <;> simp

/-- C1 witness: the amended theorem applied to an uninitialized device. -/
theorem claim_C1_witness :
    SSD1306_fill stUninit allOFF WHITE = (NO_INIT, allOFF) ∧
    (SSD1306_drawPixel stUninit allOFF 0 0 WHITE).1 ≠ NO_INIT := by
  obtain ⟨h1, _, _, _, h5, _⟩ :=
    claim_C1_amended stUninit allOFF WHITE 0 0 1 1 2 2 3 3 1 1 2 0 0 4 4 [] 65
      ⟨7, 10, []⟩ [] rfl
  exact ⟨h1, h5⟩

/-! ## C4: the SSD1306_drawPixel contract -/

/-- C4: `drawPixel` rejects out-of-panel coordinates with the out-of-bounds
error (INVALID_PARAMS) leaving the buffer unchanged; in bounds it succeeds,
stores `effColor` (the color XOR the inversion flag) in bit `y % 8` of the
byte at offset `x + (y >> 3) * WIDTH`, and changes no other byte and no
other pixel. -/
theorem claim_C4 (st : SSD1306_t) (buf : Framebuffer) (x y : Nat)
    (c : SSD1306_color_t) :
    ((WIDTH ≤ x ∨ HEIGHT ≤ y) →
      SSD1306_drawPixel st buf x y c = (INVALID_PARAMS, buf)) ∧
    (x < WIDTH → y < HEIGHT →
      (SSD1306_drawPixel st buf x y c).1 = LCD_OK ∧
      getPixel (SSD1306_drawPixel st buf x y c).2 x y =
        colorBit (effColor st.inverted c) ∧
      (∀ o, o ≠ x + (y / 8) * WIDTH →
        (SSD1306_drawPixel st buf x y c).2 o = buf o) ∧
      (∀ qx qy, qx < WIDTH → qy < HEIGHT → ¬(qx = x ∧ qy = y) →
        getPixel (SSD1306_drawPixel st buf x y c).2 qx qy =
          getPixel buf qx qy)) := by
  constructor
  · intro hoob
    rw [drawPixel_eq, if_pos hoob]
  · intro hx hy
    refine ⟨?_, getPixel_drawPixel_self st buf c hx hy,
      fun o ho => drawPixel_apply_ne st buf x y c ho,
      fun qx qy h1 h2 h3 => getPixel_drawPixel_other st buf x y c h1 h2 h3⟩
    rw [drawPixel_fst, if_neg (by omega)]

/-- C4 witness: the contract at `(200, 0)` (out of bounds) and `(3, 5)`
(in bounds). -/
theorem claim_C4_witness :
    SSD1306_drawPixel stInit allOFF 200 0 WHITE = (INVALID_PARAMS, allOFF) ∧
    (SSD1306_drawPixel stInit allOFF 3 5 WHITE).1 = LCD_OK ∧
    getPixel (SSD1306_drawPixel stInit allOFF 3 5 WHITE).2 3 5 =
      colorBit (effColor stInit.inverted WHITE) ∧
    (SSD1306_drawPixel stInit allOFF 3 5 WHITE).2 7 = allOFF 7 ∧
    getPixel (SSD1306_drawPixel stInit allOFF 3 5 WHITE).2 4 5 =
      getPixel allOFF 4 5 := by
  refine ⟨(claim_C4 stInit allOFF 200 0 WHITE).1 (by decide), ?_, ?_, ?_, ?_⟩
  · exact ((claim_C4 stInit allOFF 3 5 WHITE).2 (by decide) (by decide)).1
  · exact ((claim_C4 stInit allOFF 3 5 WHITE).2 (by decide) (by decide)).2.1
  · exact ((claim_C4 stInit allOFF 3 5 WHITE).2 (by decide) (by decide)).2.2.1
      7 (by decide)
  · exact ((claim_C4 stInit allOFF 3 5 WHITE).2 (by decide) (by decide)).2.2.2
      4 5 (by decide) (by decide) (by decide)

/-! ## C8: drawLine(0,0,10,0,ON) -/

/-- C8: from an all-OFF buffer in the non-inverted initialized state,
`drawLine(0,0,10,0,WHITE)` sets exactly the pixels `(0,0)..(10,0)`. -/
theorem claim_C8 : ∀ (px : Fin WIDTH) (py : Fin HEIGHT),
    getPixel (SSD1306_drawLine stInit allOFF 0 0 10 0 WHITE).2 px.1 py.1 =
      decide (py.1 = 0 ∧ px.1 ≤ 10) := by
  intro px py
  rw [drawLine_sameRow stInit allOFF 0 0 10 WHITE (by omega)]
  show getPixel (hLine stInit WHITE 0 0 11 allOFF) px.1 py.1 = _
  rw [getPixel_hLine stInit WHITE 0 0 11 allOFF px.2 py.2]
  split_ifs with h
  · have hd : py.1 = 0 ∧ px.1 ≤ 10 := by omega
    simp [hd, colorBit, effColor, stInit]
  · have hd : ¬(py.1 = 0 ∧ px.1 ≤ 10) := by omega
    simp [hd, getPixel_allOFF]

/-! ## C6: toggleInvert -/

theorem invertLoop_apply (buf : Framebuffer) (n : Nat) : ∀ o : Nat,
    invertLoop buf n o = if o < n then buf o ^^^ 255 else buf o := by
  induction n with
  | zero => intro o; rw [if_neg (by omega)]; rfl
  | succ n ih =>
    intro o
    show (if o = n then invertLoop buf n n ^^^ 255 else invertLoop buf n o) = _
    by_cases ho : o = n
    · rw [if_pos ho, ih n, if_neg (lt_irrefl n), if_pos (by omega), ho]
    · rw [if_neg ho, ih o]
      by_cases hlt : o < n
      · rw [if_pos hlt, if_pos (by omega)]
      · rw [if_neg hlt, if_neg (by omega)]

theorem toggleInvert_of_initialized {st : SSD1306_t} (buf : Framebuffer)
    (h : st.initialized = true) :
    SSD1306_toggleInvert st buf =
      (LCD_OK, { st with inverted := !st.inverted }, invertLoop buf BUF_SIZE) := by
  unfold SSD1306_toggleInvert
  rw [if_neg (by simp [h])]

/-- C6: on an initialized device a single `toggleInvert` succeeds,
complements every buffer byte and flips the `inverted` flag, and applying it
twice restores the driver state and the framebuffer byte for byte. -/
theorem claim_C6 (st : SSD1306_t) (buf : Framebuffer)
    (h : st.initialized = true) :
    (SSD1306_toggleInvert st buf).1 = LCD_OK ∧
    (SSD1306_toggleInvert st buf).2.1.inverted = !st.inverted ∧
    (∀ o, o < BUF_SIZE → (SSD1306_toggleInvert st buf).2.2 o = buf o ^^^ 255) ∧
    (∀ o, BUF_SIZE ≤ o → (SSD1306_toggleInvert st buf).2.2 o = buf o) ∧
    SSD1306_toggleInvert (SSD1306_toggleInvert st buf).2.1
      (SSD1306_toggleInvert st buf).2.2 = (LCD_OK, st, buf) := by
  rw [toggleInvert_of_initialized buf h]
  refine ⟨rfl, rfl, ?_, ?_, ?_⟩
  · intro o ho
    show invertLoop buf BUF_SIZE o = _
    rw [invertLoop_apply, if_pos ho]
  · intro o ho
    show invertLoop buf BUF_SIZE o = _
    rw [invertLoop_apply, if_neg (by omega)]
  · show SSD1306_toggleInvert { st with inverted := !st.inverted }
      (invertLoop buf BUF_SIZE) = _
    rw [toggleInvert_of_initialized _ (by simp [h])]
    obtain ⟨cx, cy, inv, ini⟩ := st
    simp only [Bool.not_not]
    refine congrArg _ (congrArg _ ?_)
    funext o
    rw [invertLoop_apply, invertLoop_apply]
    by_cases hlt : o < BUF_SIZE
    · rw [if_pos hlt, if_pos hlt, Nat.xor_assoc]
      simp
    · rw [if_neg hlt, if_neg hlt]

/-- C6 witness: the double toggle on the initialized state and the all-0xFF
buffer. -/
theorem claim_C6_witness :
    (SSD1306_toggleInvert stInit bufFF).1 = LCD_OK ∧
    (SSD1306_toggleInvert stInit bufFF).2.2 0 = bufFF 0 ^^^ 255 ∧
    SSD1306_toggleInvert (SSD1306_toggleInvert stInit bufFF).2.1
      (SSD1306_toggleInvert stInit bufFF).2.2 = (LCD_OK, stInit, bufFF) := by
  obtain ⟨h1, _, h3, _, h5⟩ := claim_C6 stInit bufFF rfl
  exact ⟨h1, h3 0 (by decide), h5⟩

/-! ## C10: oversized multi-byte bus writes -/

/-- C10 (counterexample): a 257-byte write exceeds
SSD1306_I2C_DATATMP_SIZE = 256 and is silently dropped: the function (whose
C return type is `void`, so it reports nothing) performs no transmission at
all, contradicting the claim that the condition is reported to the caller as
an error. -/
theorem claim_C10_counterexample :
    SSD1306_I2C_WriteMulti SSD1306_I2C_ADDR 0x40 (List.replicate 257 0xAB) 257
      = [] := rfl

/-- C10 (amended): a multi-byte write whose byte count exceeds
SSD1306_I2C_DATATMP_SIZE is silently dropped: no I2C transmission is issued,
and no error is reported (the C function returns `void`). -/
theorem claim_C10_amended (addr reg : Nat) (data : List Nat) (count : Nat)
    (h : SSD1306_I2C_DATATMP_SIZE < count) :
    SSD1306_I2C_WriteMulti addr reg data count = [] := by
  unfold SSD1306_I2C_WriteMulti
  rw [if_pos h]

/-- C10 witness: a 300-byte write to the display address is dropped. -/
theorem claim_C10_witness :
    SSD1306_I2C_WriteMulti SSD1306_I2C_ADDR 0x40 (List.replicate 300 1) 300
      = [] :=
  claim_C10_amended SSD1306_I2C_ADDR 0x40 (List.replicate 300 1) 300 (by decide)

/-! ## C2: what a successful init actually does -/

/-- C2 (code bug): `SSD1306_init` calls `SSD1306_clear` *before* setting
`initialized`, so the clear fails its own NO_INIT guard and does nothing:
after a successful init on an all-0xFF buffer the buffer still reads 0xFF
(not 0x00) and the bus trace contains only 2-byte command writes - no page
data was flushed - although init returns LCD_OK with `initialized = true`. -/
theorem claim_C2_bug :
    (SSD1306_init true stUninit bufFF).1 = LCD_OK ∧
    (SSD1306_init true stUninit bufFF).2.1.initialized = true ∧
    (SSD1306_init true stUninit bufFF).2.2.1 0 = 0xFF ∧
    ((SSD1306_init true stUninit bufFF).2.2.2).all
      (fun e => e.bytes.length == 2) = true := by
  refine ⟨rfl, rfl, rfl, ?_⟩
  decide

/-! ## C3: puts and putc failures -/

theorem putc_of_nofit {st : SSD1306_t} {font : FontDef_t}
    (h : WIDTH ≤ st.currentX + font.fontWidth ∨
      HEIGHT ≤ st.currentY + font.fontHeight)
    (buf : Framebuffer) (ch : Nat) (c : SSD1306_color_t) :
    SSD1306_putc st buf ch font c = (INVALID_PARAMS, st, buf) := by
  unfold SSD1306_putc
  rw [if_pos h]

theorem putc_fail_nofit {st : SSD1306_t} {buf : Framebuffer} {ch : Nat}
    {font : FontDef_t} {c : SSD1306_color_t}
    (h : (SSD1306_putc st buf ch font c).1 = INVALID_PARAMS) :
    WIDTH ≤ st.currentX + font.fontWidth ∨
      HEIGHT ≤ st.currentY + font.fontHeight := by
  by_contra hno
  rw [putc_fst, if_neg hno] at h
  exact absurd h (by simp)

theorem puts_after_fail (str : List Nat) : ∀ (st : SSD1306_t)
    (buf : Framebuffer) (ch : Nat) (font : FontDef_t) (c : SSD1306_color_t),
    (SSD1306_putc st buf ch font c).1 = INVALID_PARAMS →
    SSD1306_puts st buf (ch :: str) font c = (LCD_OK, st, buf) := by
  induction str with
  | nil =>
    intro st buf ch font c h
    simp only [SSD1306_puts]
    rw [putc_of_nofit (putc_fail_nofit h)]
  | cons ch2 rest ih =>
    intro st buf ch font c h
    have hc := putc_fail_nofit h
    have h2 : (SSD1306_putc st buf ch2 font c).1 = INVALID_PARAMS := by
      rw [putc_of_nofit hc]
    simp only [SSD1306_puts]
    rw [putc_of_nofit hc]
    exact ih st buf ch2 font c h2

/-- C3 (counterexample): with the cursor at x = 121 a 7x10 glyph makes
`putc` fail with INVALID_PARAMS, yet `puts` on the one-character string
returns LCD_OK instead of that failure, contradicting the claim that `puts`
returns the first `putc` failure to the caller. -/
theorem claim_C3_counterexample :
    (SSD1306_puts ⟨121, 0, false, true⟩ allOFF [65] ⟨7, 10, []⟩ WHITE).1 =
      LCD_OK ∧
    (SSD1306_putc ⟨121, 0, false, true⟩ allOFF 65 ⟨7, 10, []⟩ WHITE).1 =
      INVALID_PARAMS := ⟨rfl, rfl⟩

/-- C3 (amended): `puts` applies `putc` to each character in sequence but
ignores every `putc` status and always returns LCD_OK; because a failed
`putc` leaves the cursor and buffer unchanged, all characters from the first
failing one on fail identically, so the cursor and framebuffer are left
exactly as they were after the last successful character - but the failure
itself is never reported. -/
theorem claim_C3 (st : SSD1306_t) (buf : Framebuffer) (str : List Nat)
    (ch : Nat) (font : FontDef_t) (c : SSD1306_color_t)
    (hfail : (SSD1306_putc st buf ch font c).1 = INVALID_PARAMS) :
    (SSD1306_puts st buf str font c).1 = LCD_OK ∧
    SSD1306_puts st buf (ch :: str) font c = (LCD_OK, st, buf) :=
  ⟨puts_fst str st buf font c, puts_after_fail str st buf ch font c hfail⟩

/-- C3 witness: the amended statement on a two-character string whose first
character already fails. -/
theorem claim_C3_witness :
    (SSD1306_puts ⟨121, 0, false, true⟩ allOFF [66] ⟨7, 10, []⟩ WHITE).1 =
      LCD_OK ∧
    SSD1306_puts ⟨121, 0, false, true⟩ allOFF [65, 66] ⟨7, 10, []⟩ WHITE =
      (LCD_OK, ⟨121, 0, false, true⟩, allOFF) :=
  claim_C3 ⟨121, 0, false, true⟩ allOFF [66] 65 ⟨7, 10, []⟩ WHITE rfl

/-! ## C5: the putc contract -/

theorem colorBit_notColor (c : SSD1306_color_t) :
    colorBit (notColor c) = !colorBit c := by
  cases c <;> rfl

theorem putcCols_zero (st : SSD1306_t) (b i : Nat) (c : SSD1306_color_t)
    (buf : Framebuffer) : putcCols st b i c buf 0 = buf := rfl

theorem getPixel_putcCols (st : SSD1306_t) (b i : Nat) (c : SSD1306_color_t)
    (buf : Framebuffer) (n : Nat) {qx qy : Nat}
    (hqx : qx < WIDTH) (hqy : qy < HEIGHT) :
    getPixel (putcCols st b i c buf n) qx qy =
      if qy = st.currentY + i ∧ st.currentX ≤ qx ∧ qx < st.currentX + n then
        (if (b <<< (qx - st.currentX)) &&& 0x8000 ≠ 0 then
          colorBit (effColor st.inverted c)
         else colorBit (effColor st.inverted (notColor c)))
      else getPixel buf qx qy := by
  induction n with
  | zero => rw [putcCols_zero, if_neg (by omega)]
  | succ n ih =>
    have hstep : putcCols st b i c buf (n + 1) =
        (if (b <<< n) &&& 0x8000 ≠ 0 then
          (SSD1306_drawPixel st (putcCols st b i c buf n) (st.currentX + n)
            (st.currentY + i) c).2
         else
          (SSD1306_drawPixel st (putcCols st b i c buf n) (st.currentX + n)
            (st.currentY + i) (notColor c)).2) := by
      show (if (b <<< n) &&& 0x8000 ≠ 0 then _ else _) = _
      rfl
    rw [hstep]
    by_cases hq : qx = st.currentX + n ∧ qy = st.currentY + i
    · obtain ⟨h1, h2⟩ := hq
      have hxn : st.currentX + n < WIDTH := h1 ▸ hqx
      have hyi : st.currentY + i < HEIGHT := h2 ▸ hqy
      split
      · rename_i hbit
        rw [h1, h2, getPixel_drawPixel_self st _ c hxn hyi,
          if_pos (by omega),
          show st.currentX + n - st.currentX = n from by omega, if_pos hbit]
      · rename_i hbit
        rw [h1, h2, getPixel_drawPixel_self st _ (notColor c) hxn hyi,
          if_pos (by omega),
          show st.currentX + n - st.currentX = n from by omega, if_neg hbit]
    · have hother : ∀ c2, getPixel (SSD1306_drawPixel st
          (putcCols st b i c buf n) (st.currentX + n) (st.currentY + i) c2).2
            qx qy = getPixel (putcCols st b i c buf n) qx qy :=
        fun c2 => getPixel_drawPixel_other st _ _ _ c2 hqx hqy hq
      split
      · rw [hother, ih]
        exact if_congr (by omega) rfl rfl
      · rw [hother, ih]
        exact if_congr (by omega) rfl rfl

theorem putcRows_zero (st : SSD1306_t) (ch : Nat) (font : FontDef_t)
    (c : SSD1306_color_t) (buf : Framebuffer) :
    putcRows st ch font c buf 0 = buf := rfl

theorem getPixel_putcRows (st : SSD1306_t) (ch : Nat) (font : FontDef_t)
    (c : SSD1306_color_t) (buf : Framebuffer) (m : Nat) {qx qy : Nat}
    (hqx : qx < WIDTH) (hqy : qy < HEIGHT) :
    getPixel (putcRows st ch font c buf m) qx qy =
      if st.currentY ≤ qy ∧ qy < st.currentY + m ∧ st.currentX ≤ qx ∧
          qx < st.currentX + font.fontWidth then
        (if (glyphRow font ch (qy - st.currentY) <<< (qx - st.currentX)) &&&
            0x8000 ≠ 0 then
          colorBit (effColor st.inverted c)
         else colorBit (effColor st.inverted (notColor c)))
      else getPixel buf qx qy := by
  induction m with
  | zero => rw [putcRows_zero, if_neg (by omega)]
  | succ m ih =>
    have hstep : putcRows st ch font c buf (m + 1) =
        putcCols st (glyphRow font ch m) m c (putcRows st ch font c buf m)
          font.fontWidth := rfl
    rw [hstep, getPixel_putcCols st _ m c _ font.fontWidth hqx hqy]
    by_cases hrow : qy = st.currentY + m ∧ st.currentX ≤ qx ∧
        qx < st.currentX + font.fontWidth
    · rw [if_pos hrow,
        if_pos (show st.currentY ≤ qy ∧ qy < st.currentY + (m + 1) ∧
          st.currentX ≤ qx ∧ qx < st.currentX + font.fontWidth from by omega),
        show m = qy - st.currentY from by omega]
    · rw [if_neg hrow, ih]
      exact if_congr (by omega) rfl rfl

/-- C5 (counterexample): with the cursor at x = 121 the 7x10 glyph box spans
columns 121..127 and rows 0..9, entirely inside the 128x64 panel (it does
not exceed it: 121 + 7 ≤ 128 and 0 + 10 ≤ 64), yet `putc` rejects with the
out-of-bounds error - refuting "rejects exactly when the glyph box would
exceed the panel". -/
theorem claim_C5_counterexample :
    121 + 7 ≤ WIDTH ∧ 0 + 10 ≤ HEIGHT ∧
    SSD1306_putc ⟨121, 0, false, true⟩ allOFF 65 ⟨7, 10, []⟩ WHITE =
      (INVALID_PARAMS, ⟨121, 0, false, true⟩, allOFF) :=
  ⟨by decide, by decide, rfl⟩

/-- C5 (amended): `putc` rejects with the out-of-bounds error
(INVALID_PARAMS) exactly when `currentX + fontWidth ≥ WIDTH` or
`currentY + fontHeight ≥ HEIGHT` - i.e. not only when the glyph box would
exceed the panel but also when it would exactly reach the right or bottom
edge - leaving the cursor and buffer unchanged; otherwise (stated here for
the non-inverted state) it writes every destination pixel of the glyph box,
to `color` where the glyph bit is set and to `!color` otherwise, leaves all
pixels outside the box unchanged, and advances the cursor's X by the font's
fixed width leaving Y unchanged. -/
theorem claim_C5_amended (st : SSD1306_t) (buf : Framebuffer) (ch : Nat)
    (font : FontDef_t) (c : SSD1306_color_t) (hinv : st.inverted = false) :
    ((WIDTH ≤ st.currentX + font.fontWidth ∨
        HEIGHT ≤ st.currentY + font.fontHeight) →
      SSD1306_putc st buf ch font c = (INVALID_PARAMS, st, buf)) ∧
    (st.currentX + font.fontWidth < WIDTH →
      st.currentY + font.fontHeight < HEIGHT →
      (SSD1306_putc st buf ch font c).1 = LCD_OK ∧
      (SSD1306_putc st buf ch font c).2.1 =
        { st with currentX := st.currentX + font.fontWidth } ∧
      (∀ i j, i < font.fontHeight → j < font.fontWidth →
        getPixel (SSD1306_putc st buf ch font c).2.2
            (st.currentX + j) (st.currentY + i) =
          (if (glyphRow font ch i <<< j) &&& 0x8000 ≠ 0 then colorBit c
           else !(colorBit c))) ∧
      (∀ qx qy, qx < WIDTH → qy < HEIGHT →
        ¬(st.currentX ≤ qx ∧ qx < st.currentX + font.fontWidth ∧
          st.currentY ≤ qy ∧ qy < st.currentY + font.fontHeight) →
        getPixel (SSD1306_putc st buf ch font c).2.2 qx qy =
          getPixel buf qx qy)) := by
  constructor
  · exact fun h => putc_of_nofit h buf ch c
  · intro hw hh
    have hputc : SSD1306_putc st buf ch font c =
        (LCD_OK, { st with currentX := st.currentX + font.fontWidth },
          putcRows st ch font c buf font.fontHeight) := by
      unfold SSD1306_putc
      rw [if_neg (by omega)]
    rw [hputc]
    refine ⟨rfl, rfl, ?_, ?_⟩
    · intro i j hi hj
      show getPixel (putcRows st ch font c buf font.fontHeight) _ _ = _
      rw [getPixel_putcRows st ch font c buf font.fontHeight
        (by omega) (by omega), if_pos (by omega)]
      have h1 : st.currentY + i - st.currentY = i := by omega
      have h2 : st.currentX + j - st.currentX = j := by omega
      rw [h1, h2, hinv]
      by_cases hbit : (glyphRow font ch i <<< j) &&& 0x8000 ≠ 0
      · rw [if_pos hbit, if_pos hbit]
        simp [effColor]
      · rw [if_neg hbit, if_neg hbit]
        simp [effColor, colorBit_notColor]
    · intro qx qy h1 h2 h3
      show getPixel (putcRows st ch font c buf font.fontHeight) _ _ = _
      rw [getPixel_putcRows st ch font c buf font.fontHeight h1 h2,
        if_neg (by omega)]

/-- C5 witness: the amended contract at the exactly-fitting cursor 121
(rejection) and at the origin cursor with a 7x10 font (success: status,
cursor advance, one glyph pixel, one untouched pixel). -/
theorem claim_C5_witness :
    SSD1306_putc ⟨121, 0, false, true⟩ allOFF 65 ⟨7, 10, []⟩ WHITE =
      (INVALID_PARAMS, ⟨121, 0, false, true⟩, allOFF) ∧
    (SSD1306_putc stInit allOFF 65 ⟨7, 10, []⟩ WHITE).1 = LCD_OK ∧
    (SSD1306_putc stInit allOFF 65 ⟨7, 10, []⟩ WHITE).2.1 =
      { stInit with currentX := stInit.currentX + 7 } ∧
    getPixel (SSD1306_putc stInit allOFF 65 ⟨7, 10, []⟩ WHITE).2.2
        (stInit.currentX + 0) (stInit.currentY + 0) =
      (if (glyphRow ⟨7, 10, []⟩ 65 0 <<< 0) &&& 0x8000 ≠ 0 then colorBit WHITE
       else !(colorBit WHITE)) ∧
    getPixel (SSD1306_putc stInit allOFF 65 ⟨7, 10, []⟩ WHITE).2.2 100 50 =
      getPixel allOFF 100 50 := by
  refine ⟨(claim_C5_amended ⟨121, 0, false, true⟩ allOFF 65 ⟨7, 10, []⟩ WHITE
    rfl).1 (by decide), ?_, ?_, ?_, ?_⟩
  · exact ((claim_C5_amended stInit allOFF 65 ⟨7, 10, []⟩ WHITE rfl).2
      (by decide) (by decide)).1
  · exact ((claim_C5_amended stInit allOFF 65 ⟨7, 10, []⟩ WHITE rfl).2
      (by decide) (by decide)).2.1
  · exact ((claim_C5_amended stInit allOFF 65 ⟨7, 10, []⟩ WHITE rfl).2
      (by decide) (by decide)).2.2.1 0 0 (by decide) (by decide)
  · exact ((claim_C5_amended stInit allOFF 65 ⟨7, 10, []⟩ WHITE rfl).2
      (by decide) (by decide)).2.2.2 100 50 (by decide) (by decide) (by decide)

/-! ## C7: drawRectangle clamping -/

theorem drawRectangle_eq (st : SSD1306_t) (buf : Framebuffer) (x y w h : Nat)
    (c : SSD1306_color_t) (hx : x < WIDTH) (hy : y < HEIGHT) :
    SSD1306_drawRectangle st buf x y w h c =
      (LCD_OK,
        (SSD1306_drawLine st
          (SSD1306_drawLine st
            (SSD1306_drawLine st
              (SSD1306_drawLine st buf x y
                (x + if WIDTH ≤ x + w then WIDTH - x else w) y c).2
              x (y + if HEIGHT ≤ y + h then HEIGHT - y else h)
              (x + if WIDTH ≤ x + w then WIDTH - x else w)
              (y + if HEIGHT ≤ y + h then HEIGHT - y else h) c).2
            x y x (y + if HEIGHT ≤ y + h then HEIGHT - y else h) c).2
          (x + if WIDTH ≤ x + w then WIDTH - x else w) y
          (x + if WIDTH ≤ x + w then WIDTH - x else w)
          (y + if HEIGHT ≤ y + h then HEIGHT - y else h) c).2) := by
  unfold SSD1306_drawRectangle
  rw [if_neg (by omega)]

theorem changed_bounds_of_pixel {o k col row : Nat} (hcol : col < WIDTH)
    (hrow : row < HEIGHT) (ho : o = col + (row / 8) * WIDTH)
    (hk : k = row % 8) :
    o < BUF_SIZE ∧ o % WIDTH = col ∧ (o / WIDTH) * 8 + k = row := by
  subst ho hk
  simp only [WIDTH_eq, HEIGHT_eq, BUF_SIZE_eq] at *
  exact ⟨by omega, by omega, by omega⟩

/-- C7: for an in-panel anchor `(x, y)`, `drawRectangle` only changes bits
inside the framebuffer array whose decoded pixel lies within the clamped
rectangle: every changed bit `(o, k)` satisfies `o < BUF_SIZE`, its column
`o % WIDTH` lies in `[x, min (x+w) (WIDTH-1)]`, and its row
`(o / WIDTH) * 8 + k` lies in `[y, min (y+h) (HEIGHT-1)]`; in particular no
pixel beyond column WIDTH-1 or row HEIGHT-1 is ever set, and no write wraps
around into a neighbouring page. -/
theorem claim_C7 (st : SSD1306_t) (buf : Framebuffer) (x y w h : Nat)
    (c : SSD1306_color_t) (hb : byteBounded buf) (hx : x < WIDTH)
    (hy : y < HEIGHT) (o k : Nat)
    (hch : Nat.testBit ((SSD1306_drawRectangle st buf x y w h c).2 o) k ≠
      Nat.testBit (buf o) k) :
    o < BUF_SIZE ∧ x ≤ o % WIDTH ∧ o % WIDTH ≤ min (x + w) (WIDTH - 1) ∧
      y ≤ (o / WIDTH) * 8 + k ∧
      (o / WIDTH) * 8 + k ≤ min (y + h) (HEIGHT - 1) := by
  rw [drawRectangle_eq st buf x y w h c hx hy] at hch
  dsimp only at hch
  set wc := if WIDTH ≤ x + w then WIDTH - x else w with hwc
  set hc := if HEIGHT ≤ y + h then HEIGHT - y else h with hhc
  have hwcf : x + wc ≤ WIDTH ∧ wc ≤ w := by rw [hwc]; split <;> omega
  have hhcf : y + hc ≤ HEIGHT ∧ hc ≤ h := by rw [hhc]; split <;> omega
  rw [drawLine_sameRow st buf x y (x + wc) c (by omega)] at hch
  rw [drawLine_sameRow st _ x (y + hc) (x + wc) c (by omega)] at hch
  rw [drawLine_sameCol st _ x y (y + hc) c (by omega)] at hch
  rw [drawLine_sameCol st _ (x + wc) y (y + hc) c (by omega)] at hch
  simp only [if_neg (show ¬(WIDTH ≤ x) from by omega),
    if_neg (show ¬(HEIGHT ≤ y) from by omega)] at hch
  set xe := if WIDTH ≤ x + wc then WIDTH - 1 else x + wc with hxe
  set ye := if HEIGHT ≤ y + hc then HEIGHT - 1 else y + hc with hye
  have hxef : x ≤ xe ∧ xe ≤ x + wc ∧ xe < WIDTH := by
    rw [hxe]; simp only [WIDTH_eq] at *; split <;> omega
  have hyef : y ≤ ye ∧ ye ≤ y + hc ∧ ye < HEIGHT := by
    rw [hye]; simp only [HEIGHT_eq] at *; split <;> omega
  set B1 := hLine st c y x (xe + 1 - x) buf with hB1d
  set B2 := hLine st c ye x (xe + 1 - x) B1 with hB2d
  set B3 := vLine st c x y (ye + 1 - y) B2 with hB3d
  have hbB1 : byteBounded B1 := byteBounded_hLine st c y x (xe + 1 - x) hb
  have hbB2 : byteBounded B2 := byteBounded_hLine st c ye x (xe + 1 - x) hbB1
  have hbB3 : byteBounded B3 := byteBounded_vLine st c x y (ye + 1 - y) hbB2
  by_cases hc3 : Nat.testBit (B3 o) k = Nat.testBit (buf o) k
  · rw [← hc3] at hch
    obtain ⟨hcol, i, hi, hrow, ho, hk⟩ :=
      vLine_changed st c xe y (ye + 1 - y) hbB3 hch
    obtain ⟨g1, g2, g3⟩ := changed_bounds_of_pixel hcol hrow ho hk
    refine ⟨g1, ?_, ?_, ?_, ?_⟩ <;> omega
  by_cases hc2 : Nat.testBit (B2 o) k = Nat.testBit (buf o) k
  · have hch3 : Nat.testBit (B3 o) k ≠ Nat.testBit (B2 o) k := by
      rw [hc2]; exact hc3
    obtain ⟨hcol, i, hi, hrow, ho, hk⟩ :=
      vLine_changed st c x y (ye + 1 - y) hbB2 hch3
    obtain ⟨g1, g2, g3⟩ := changed_bounds_of_pixel hcol hrow ho hk
    refine ⟨g1, ?_, ?_, ?_, ?_⟩ <;> omega
  by_cases hc1 : Nat.testBit (B1 o) k = Nat.testBit (buf o) k
  · have hch2 : Nat.testBit (B2 o) k ≠ Nat.testBit (B1 o) k := by
      rw [hc1]; exact hc2
    obtain ⟨hrowlt, hk, i, hi, hcol, ho⟩ :=
      hLine_changed st c ye x (xe + 1 - x) hbB1 hch2
    obtain ⟨g1, g2, g3⟩ := changed_bounds_of_pixel hcol hrowlt ho hk
    refine ⟨g1, ?_, ?_, ?_, ?_⟩ <;> omega
  · obtain ⟨hrowlt, hk, i, hi, hcol, ho⟩ :=
      hLine_changed st c y x (xe + 1 - x) hb hc1
    obtain ⟨g1, g2, g3⟩ := changed_bounds_of_pixel hcol hrowlt ho hk
    refine ⟨g1, ?_, ?_, ?_, ?_⟩ <;> omega

/-- C7 witness: drawing the rectangle (120, 60, 20, 20) - which overflows
both panel edges - on the all-OFF buffer changes bit 4 of byte 1016 (pixel
(120, 60)), and the theorem places that change inside the clamped
rectangle. -/
theorem claim_C7_witness :
    Nat.testBit ((SSD1306_drawRectangle stInit allOFF 120 60 20 20 WHITE).2
      1016) 4 ≠ Nat.testBit (allOFF 1016) 4 ∧
    (1016 < BUF_SIZE ∧ 120 ≤ 1016 % WIDTH ∧
      1016 % WIDTH ≤ min (120 + 20) (WIDTH - 1) ∧
      60 ≤ (1016 / WIDTH) * 8 + 4 ∧
      (1016 / WIDTH) * 8 + 4 ≤ min (60 + 20) (HEIGHT - 1)) := by
  refine ⟨by decide, ?_⟩
  exact claim_C7 stInit allOFF 120 60 20 20 WHITE byteBounded_allOFF
    (by decide) (by decide) 1016 4 (by decide)

/-! ## C9: eightfold symmetry of drawCircle -/

theorem u16_eq_iff {X Y : Int} : u16 X = u16 Y ↔ X % 65536 = Y % 65536 := by
  unfold u16
  omega

theorem pixSet_drawPixel_WHITE {st : SSD1306_t} (hinv : st.inverted = false)
    (buf : Framebuffer) (u v : Nat) {QX QY : Nat}
    (hQX : QX < WIDTH) (hQY : QY < HEIGHT) :
    getPixel (SSD1306_drawPixel st buf u v WHITE).2 QX QY = true ↔
      (getPixel buf QX QY = true ∨ (u = QX ∧ v = QY)) := by
  by_cases hq : QX = u ∧ QY = v
  · obtain ⟨rfl, rfl⟩ := hq
    rw [getPixel_drawPixel_self st buf WHITE hQX hQY, hinv]
    simp [effColor, colorBit]
  · rw [getPixel_drawPixel_other st buf u v WHITE hQX hQY hq]
    have hne : ¬(u = QX ∧ v = QY) := fun hh => hq ⟨hh.1.symm, hh.2.symm⟩
    simp [hne]

theorem plotPoints_nil (st : SSD1306_t) (x0 y0 : Int) (c : SSD1306_color_t)
    (buf : Framebuffer) : plotPoints st x0 y0 c [] buf = buf := rfl

theorem plotPoints_cons (st : SSD1306_t) (x0 y0 : Int) (c : SSD1306_color_t)
    (p : Int × Int) (L : List (Int × Int)) (buf : Framebuffer) :
    plotPoints st x0 y0 c (p :: L) buf =
      plotPoints st x0 y0 c L
        (SSD1306_drawPixel st buf (u16 (x0 + p.1)) (u16 (y0 + p.2)) c).2 := rfl

theorem pixSet_plotPoints {st : SSD1306_t} (hinv : st.inverted = false)
    (x0 y0 : Int) (L : List (Int × Int)) (buf : Framebuffer) {X Y : Int}
    (hin : inPanel X Y) :
    pixSet (plotPoints st x0 y0 WHITE L buf) X Y ↔
      (pixSet buf X Y ∨
        ∃ p ∈ L, u16 (x0 + p.1) = u16 X ∧ u16 (y0 + p.2) = u16 Y) := by
  induction L generalizing buf with
  | nil => simp [plotPoints_nil]
  | cons p L ih =>
    rw [plotPoints_cons, ih]
    unfold pixSet
    rw [pixSet_drawPixel_WHITE hinv buf (u16 (x0 + p.1)) (u16 (y0 + p.2))
      hin.1 hin.2]
    simp only [List.mem_cons]
    constructor
    · rintro ((h | ⟨h1, h2⟩) | ⟨p2, hp2, h3, h4⟩)
      · exact Or.inl h
      · exact Or.inr ⟨p, Or.inl rfl, h1, h2⟩
      · exact Or.inr ⟨p2, Or.inr hp2, h3, h4⟩
    · rintro (h | ⟨p2, (rfl | hp2), h3, h4⟩)
      · exact Or.inl (Or.inl h)
      · exact Or.inl (Or.inr ⟨h3, h4⟩)
      · exact Or.inr ⟨p2, hp2, h3, h4⟩

theorem mem_reflections_trans {a b : Int} {p : Int × Int}
    (hp : p ∈ reflections a b) {q : Int × Int}
    (hq : q ∈ reflections p.1 p.2) : q ∈ reflections a b := by
  simp only [reflections, List.mem_cons, List.not_mem_nil, or_false] at hp hq ⊢
  rcases hp with rfl | rfl | rfl | rfl | rfl | rfl | rfl | rfl <;>
    simp only [] at hq <;>
    rcases hq with rfl | rfl | rfl | rfl | rfl | rfl | rfl | rfl <;>
    simp [neg_neg]

theorem mem_reflections_init {r : Int} {p : Int × Int}
    (hp : p ∈ [((0 : Int), r), (0, -r), (r, 0), (-r, 0)]) {q : Int × Int}
    (hq : q ∈ reflections p.1 p.2) :
    q ∈ [((0 : Int), r), (0, -r), (r, 0), (-r, 0)] := by
  simp only [reflections, List.mem_cons, List.not_mem_nil, or_false] at hp hq ⊢
  rcases hp with rfl | rfl | rfl | rfl <;>
    simp only [] at hq <;>
    rcases hq with rfl | rfl | rfl | rfl | rfl | rfl | rfl | rfl <;>
    simp [neg_neg, neg_zero]

theorem reflections_congr {a b p1 p2 : Int}
    (h1 : a % 65536 = p1 % 65536) (h2 : b % 65536 = p2 % 65536) :
    ∀ q ∈ reflections a b, ∃ q2 ∈ reflections p1 p2,
      q.1 % 65536 = q2.1 % 65536 ∧ q.2 % 65536 = q2.2 % 65536 := by
  intro q hq
  simp only [reflections, List.mem_cons, List.not_mem_nil, or_false] at hq
  rcases hq with rfl | rfl | rfl | rfl | rfl | rfl | rfl | rfl
  · exact ⟨(p1, p2), by simp [reflections], h1, h2⟩
  · exact ⟨(-p1, p2), by simp [reflections], by omega, h2⟩
  · exact ⟨(p1, -p2), by simp [reflections], h1, by omega⟩
  · exact ⟨(-p1, -p2), by simp [reflections], by omega, by omega⟩
  · exact ⟨(p2, p1), by simp [reflections], h2, h1⟩
  · exact ⟨(-p2, p1), by simp [reflections], by omega, h1⟩
  · exact ⟨(p2, -p1), by simp [reflections], h2, by omega⟩
  · exact ⟨(-p2, -p1), by simp [reflections], by omega, by omega⟩

theorem SymAbout_plotPoints {st : SSD1306_t} (hinv : st.inverted = false)
    (cx cy : Int) {buf : Framebuffer} (hbuf : SymAbout cx cy buf)
    (L : List (Int × Int))
    (hL : ∀ p ∈ L, ∀ q ∈ reflections p.1 p.2, q ∈ L) :
    SymAbout cx cy (plotPoints st cx cy WHITE L buf) := by
  intro a b hab hset q hq hqin
  rw [pixSet_plotPoints hinv cx cy L buf hab] at hset
  rw [pixSet_plotPoints hinv cx cy L buf hqin]
  rcases hset with hold | ⟨p, hpL, hpx, hpy⟩
  · exact Or.inl (hbuf a b hab hold q hq hqin)
  · right
    have c1 : a % 65536 = p.1 % 65536 := by
      have := u16_eq_iff.mp hpx; omega
    have c2 : b % 65536 = p.2 % 65536 := by
      have := u16_eq_iff.mp hpy; omega
    obtain ⟨q2, hq2, d1, d2⟩ := reflections_congr c1 c2 q hq
    refine ⟨q2, hL p hpL q2 hq2, ?_, ?_⟩
    · exact u16_eq_iff.mpr (by omega)
    · exact u16_eq_iff.mpr (by omega)

theorem SymAbout_circleSteps {st : SSD1306_t} (hinv : st.inverted = false)
    (cx cy : Int) : ∀ (fuel : Nat) (f dfx dfy x y : Int) (buf : Framebuffer),
    SymAbout cx cy buf →
    SymAbout cx cy (circleSteps st cx cy WHITE fuel f dfx dfy x y buf) := by
  intro fuel
  induction fuel with
  | zero => intro f dfx dfy x y buf hbuf; exact hbuf
  | succ fuel ih =>
    intro f dfx dfy x y buf hbuf
    show SymAbout cx cy (if x < y then _ else buf)
    split
    · exact ih _ _ _ _ _ _
        (SymAbout_plotPoints hinv cx cy hbuf (reflections (x + 1)
          (if f ≥ 0 then y - 1 else y))
          (fun p hp q hq => mem_reflections_trans hp hq))
    · exact hbuf

theorem SymAbout_allOFF (cx cy : Int) : SymAbout cx cy allOFF := by
  intro a b hab hset q hq hqin
  exact absurd hset (by simp [pixSet, getPixel_allOFF])

/-- C9 (counterexample): for the circle of radius 5 centered at (0, 10), the
pixel at center offset (5, 0) is set, but its reflection at offset (-5, 0)
is not (it falls outside the panel and is rejected by drawPixel), refuting
the claim that whenever the pixel at offset (a, b) is set all eight
reflected pixels are set as well. -/
theorem claim_C9_counterexample :
    ((-5 : Int), (0 : Int)) ∈ reflections 5 0 ∧
    pixSet (SSD1306_drawCircle stInit allOFF 0 10 5 WHITE).2 (0 + 5) (10 + 0) ∧
    ¬ pixSet (SSD1306_drawCircle stInit allOFF 0 10 5 WHITE).2
        (0 + -5) (10 + 0) := by
  refine ⟨by simp [reflections], ?_, ?_⟩
  · unfold pixSet
    decide
  · unfold pixSet
    decide

/-- C9 (amended): the pixel set drawn by `drawCircle(cx, cy, r, WHITE)` on
an all-OFF non-inverted buffer is symmetric under the eight reflections
within the panel: whenever the in-panel pixel at center offset (a, b) is
set, every one of its eight reflections whose coordinates land inside the
panel is also set.  (Reflections that fall outside the panel are clipped
pixel by pixel by drawPixel and are not drawn.) -/
theorem claim_C9_amended (st : SSD1306_t) (x0 y0 r : Int)
    (hinv : st.inverted = false) :
    SymAbout x0 y0 (SSD1306_drawCircle st allOFF x0 y0 r WHITE).2 := by
  have h1 : SymAbout x0 y0
      (plotPoints st x0 y0 WHITE [(0, r), (0, -r), (r, 0), (-r, 0)] allOFF) :=
    SymAbout_plotPoints hinv x0 y0 (SymAbout_allOFF x0 y0) _
      (fun p hp q hq => mem_reflections_init hp hq)
  exact SymAbout_circleSteps hinv x0 y0 r.toNat (1 - r) 1 (-2 * r) 0 r _ h1

/-- C9 witness: the amended symmetry at the concrete circle of radius 5
centered at (0, 10). -/
theorem claim_C9_witness :
    SymAbout 0 10 (SSD1306_drawCircle stInit allOFF 0 10 5 WHITE).2 :=
  claim_C9_amended stInit 0 10 5 rfl

/-- Faithfulness of the iteration bound used for the midpoint-circle loop:
any fuel at least `(y - x).toNat` - the maximum number of iterations the C
`while (x < y)` loop can perform, since each iteration increments `x` and
never increases `y` - yields the same buffer.  `SSD1306_drawCircle` enters
the loop with `x = 0`, `y = r` and fuel `r.toNat`, which is exactly this
bound. -/
theorem circleSteps_fuel_invariant (st : SSD1306_t) (cx cy : Int)
    (c : SSD1306_color_t) : ∀ (n m : Nat) (f dfx dfy x y : Int)
    (buf : Framebuffer), (y - x).toNat ≤ n → (y - x).toNat ≤ m →
    circleSteps st cx cy c n f dfx dfy x y buf =
      circleSteps st cx cy c m f dfx dfy x y buf := by
  intro n
  induction n with
  | zero =>
    intro m f dfx dfy x y buf hn hm
    cases m with
    | zero => rfl
    | succ m =>
      show _ = (if x < y then _ else buf)
      rw [if_neg (by omega)]
      rfl
  | succ n ih =>
    intro m f dfx dfy x y buf hn hm
    cases m with
    | zero =>
      show (if x < y then _ else buf) = _
      rw [if_neg (by omega)]
      rfl
    | succ m =>
      show (if x < y then _ else buf) = (if x < y then _ else buf)
      by_cases hxy : x < y
      · rw [if_pos hxy, if_pos hxy]
        by_cases hf : f ≥ 0
        · simp only [if_pos hf]
          exact ih m _ _ _ _ _ _ (by omega) (by omega)
        · simp only [if_neg hf]
          exact ih m _ _ _ _ _ _ (by omega) (by omega)
      · rw [if_neg hxy, if_neg hxy]
